import Mathlib

/-!
Verification of the StreamMex IPTV channel engine.

This file gives a shallow embedding, in Lean, of the name-normalization,
alias resolution, playlist parsing, channel aggregation and variant
selection logic of the addon (files
`resources/lib/m3u_builder.py` and `resources/lib/playlist_source.py`),
and proves or refutes the specified properties about them.

Conventions of the embedding:
* Python strings are Lean `String` / `List Char`; scanning loops are
  structural recursions on the character list.
* The handful of fixed regular expressions in the source are ported as
  explicit scanners with the same match semantics (leftmost match,
  greedy/lazy as in the original pattern, word boundaries `\b` tested
  against the previous/next character).
* Unicode NFD/NFKD folding followed by dropping combining marks is
  tabulated for the accented Latin letters that occur in the channel
  name tables; characters without a tabulated decomposition fold to
  themselves.  Case mapping is the ASCII one (all folded text the
  program compares is ASCII).
* Python float timestamps are modelled as integer epoch seconds: the
  engine only ever compares a difference of two timestamps against the
  constant 20, and every time in the claims is integral.
* Fallible operations (JSON decoding, list indexing) return `Option` /
  `Except`.
-/

/-! ### Basic character classes (Python `str.strip`, `\s`, `\w`, `\d`) -/

/-- Python whitespace (`\s`, and the default `str.strip` set), ASCII part. -/
def isPySpace (c : Char) : Bool :=
  c = ' ' || c = '\t' || c = '\n' || c = '\r' || c = '\x0b' || c = '\x0c'

/-- Python `\w` word character (ASCII part): letters, digits, underscore. -/
def isWordChar (c : Char) : Bool :=
  ('A' ≤ c && c ≤ 'Z') || ('a' ≤ c && c ≤ 'z') || c.isDigit || c = '_'

/-- ASCII upper-case of one character (`str.upper` on the folded text). -/
def pyUpperChar (c : Char) : Char := c.toUpper

/-- ASCII lower-case of one character (`str.lower` on URLs and keys). -/
def pyLowerChar (c : Char) : Char := c.toLower

/-- `str.strip()` : drop leading and trailing whitespace. -/
def pyStrip (l : List Char) : List Char :=
  ((l.dropWhile isPySpace).reverse.dropWhile isPySpace).reverse

/-- Drop only trailing whitespace (used for the `\s*$` ends of patterns). -/
def dropTrailingSpace (l : List Char) : List Char :=
  (l.reverse.dropWhile isPySpace).reverse

/-- Unicode decomposition (NFD/NFKD) followed by removal of combining
marks, tabulated for the accented Latin letters used by the channel
tables ("ékezetmentesítés"); other characters are unchanged. -/
def foldAccentChar (c : Char) : Char :=
  match c with
  | 'á' => 'a' | 'é' => 'e' | 'í' => 'i' | 'ó' => 'o' | 'ö' => 'o'
  | 'ő' => 'o' | 'ú' => 'u' | 'ü' => 'u' | 'ű' => 'u'
  | 'Á' => 'A' | 'É' => 'E' | 'Í' => 'I' | 'Ó' => 'O' | 'Ö' => 'O'
  | 'Ő' => 'O' | 'Ú' => 'U' | 'Ü' => 'U' | 'Ű' => 'U'
  | 'à' => 'a' | 'â' => 'a' | 'ä' => 'a' | 'è' => 'e' | 'ê' => 'e'
  | 'ë' => 'e' | 'ì' => 'i' | 'î' => 'i' | 'ï' => 'i' | 'ò' => 'o'
  | 'ô' => 'o' | 'õ' => 'o' | 'ù' => 'u' | 'û' => 'u' | 'ç' => 'c'
  | 'ñ' => 'n' | 'ý' => 'y'
  | 'À' => 'A' | 'Â' => 'A' | 'Ä' => 'A' | 'È' => 'E' | 'Ê' => 'E'
  | 'Ë' => 'E' | 'Ì' => 'I' | 'Î' => 'I' | 'Ï' => 'I' | 'Ò' => 'O'
  | 'Ô' => 'O' | 'Õ' => 'O' | 'Ù' => 'U' | 'Û' => 'U' | 'Ç' => 'C'
  | 'Ñ' => 'N' | 'Ý' => 'Y'
  | _ => c

/-- `unicodedata.normalize` + drop of combining marks over a string. -/
def foldAccents (l : List Char) : List Char := l.map foldAccentChar

/-! ### `m3u_builder._strip_color_tags` : the regex `\[/?COLOR[^\]]*\]` -/

/-- Index of the first `]` in the list, if any (the `[^\]]*\]` tail of the
color-tag pattern). -/
def findRBracket : List Char → Option Nat
  | [] => none
  | c :: cs => if c = ']' then some 0 else (findRBracket cs).map (· + 1)

/-- The `COLOR[^\]]*\]` tail of the color-tag pattern, after an optional
slash counted by `slash`. -/
def matchColorTagBody (slash : Nat) (rest2 : List Char) : Option Nat :=
  match rest2 with
  | c1 :: c2 :: c3 :: c4 :: c5 :: rest3 =>
    if [c1.toUpper, c2.toUpper, c3.toUpper, c4.toUpper, c5.toUpper]
        = ['C', 'O', 'L', 'O', 'R'] then
      (findRBracket rest3).map (fun k => 1 + slash + 5 + k + 1)
    else none
  | _ => none

/-- Length of a `\[/?COLOR[^\]]*\]` match (case-insensitive `COLOR`)
starting at the head of the list, if one starts here. -/
def matchColorTag (l : List Char) : Option Nat :=
  match l with
  | '[' :: '/' :: rest => matchColorTagBody 1 rest
  | '[' :: rest => matchColorTagBody 0 rest
  | _ => none

/-- `_strip_color_tags`, fuelled scan: remove every `\[/?COLOR[^\]]*\]`
span.  A match is at least one character long, so fuel equal to the
length of the text never runs out; fuel keeps the recursion structural
(and hence kernel-computable). -/
def stripColorTagsFuel : Nat → List Char → List Char
  | 0, l => l
  | _ + 1, [] => []
  | n + 1, c :: cs =>
    match matchColorTag (c :: cs) with
    | some k => stripColorTagsFuel n ((c :: cs).drop k)
    | none => c :: stripColorTagsFuel n cs

def stripColorTags (l : List Char) : List Char := stripColorTagsFuel l.length l

/-! ### Whole-word replacement : `re.sub(r'\bWORD\b', digit, txt)` -/

/-- One global pass of `re.sub(r'\bW\b', rep, s)` for a fixed word `W`
made of word characters.  `prevWord` says whether the character just
before the current position is a word character (so that `\b` holds at
the current position iff `¬ prevWord`).  Each step consumes at least one
character, so fuel equal to the length of the text never runs out. -/
def replaceWordFuel (w rep : List Char) : Nat → Bool → List Char → List Char
  | 0, _, l => l
  | _ + 1, _, [] => []
  | n + 1, prevWord, c :: cs =>
    if !prevWord && decide ((c :: cs).take w.length = w)
        && (match (c :: cs).drop w.length with
            | [] => true
            | d :: _ => !isWordChar d) then
      rep ++ replaceWordFuel w rep n
        (match rep.getLast? with
         | some r => isWordChar r
         | none => prevWord)
        (cs.drop (w.length - 1))
    else
      c :: replaceWordFuel w rep n (isWordChar c) cs

def replaceWord (w rep : List Char) (s : List Char) : List Char :=
  replaceWordFuel w rep s.length false s

/-- `_NUM_REPLACEMENTS` : the ordered numeral-word / Roman-numeral table,
applied in insertion order of the Python dict. -/
def numReplacements : List (List Char × List Char) :=
  [ ("II".data, "2".data)
  , ("III".data, "3".data)
  , ("IV".data, "4".data)
  , ("VII".data, "7".data)
  , ("EGY".data, "1".data)
  , ("KETTO".data, "2".data)
  , ("HAROM".data, "3".data)
  , ("NEGY".data, "4".data)
  , ("OT".data, "5".data)
  , ("HAT".data, "6".data)
  , ("HET".data, "7".data) ]

def applyNumReplacements (s : List Char) : List Char :=
  numReplacements.foldl (fun acc p => replaceWord p.1 p.2 acc) s

/-! ### The bracket-removal loop of `_normalize_epg_name` (step 4) -/

/-- Depth-tracked removal of `(...)` and `[...]` spans: opening brackets
raise the depth, closing brackets lower it (when positive) and are
always dropped, and a character is kept only at depth zero. -/
def removeBracketSpans : List Char → Nat → List Char
  | [], _ => []
  | c :: cs, depth =>
    if c = '(' || c = '[' then
      removeBracketSpans cs (depth + 1)
    else if c = ')' || c = ']' then
      removeBracketSpans cs (depth - 1)
    else if depth = 0 then
      c :: removeBracketSpans cs depth
    else
      removeBracketSpans cs depth

/-! ### The end-anchored suffix patterns of `_normalize_epg_name` -/

/-- `re.sub(r'SUF\s*$', '', txt)` for a literal suffix `SUF` : if the text
ends with `SUF` followed only by whitespace, remove the suffix and that
whitespace, otherwise leave the text unchanged. -/
def stripLiteralSuffixWs (suf : List Char) (l : List Char) : List Char :=
  let t := dropTrailingSpace l
  if t.reverse.take suf.length = suf.reverse then
    t.take (t.length - suf.length)
  else l

/-- `re.sub(r'\s+WORD$', '', txt)` : if the text ends with `WORD`
preceded by at least one whitespace character, remove the word and the
whole run of whitespace before it. -/
def stripWsWordSuffix (w : List Char) (l : List Char) : List Char :=
  if l.reverse.take w.length = w.reverse then
    let rest := l.take (l.length - w.length)
    match rest.reverse with
    | [] => l
    | c :: _ =>
      if isPySpace c then dropTrailingSpace rest else l
  else l

/-- `re.sub(r'(\D)\s+(\d)', r'\1\2', txt)` : collapse «non-digit,
whitespace run, digit» into «non-digit, digit», globally, resuming the
scan after each replaced digit. -/
def collapseSpaceBeforeDigitFuel : Nat → List Char → List Char
  | 0, l => l
  | _ + 1, [] => []
  | n + 1, c :: cs =>
    if c.isDigit then
      c :: collapseSpaceBeforeDigitFuel n cs
    else
      let run := cs.takeWhile isPySpace
      match cs.drop run.length with
      | d :: rest =>
        if run.length ≥ 1 && d.isDigit then
          c :: d :: collapseSpaceBeforeDigitFuel n rest
        else
          c :: collapseSpaceBeforeDigitFuel n cs
      | [] => c :: collapseSpaceBeforeDigitFuel n cs

def collapseSpaceBeforeDigit (l : List Char) : List Char :=
  collapseSpaceBeforeDigitFuel l.length l

/-- `re.sub(r'(HD|FHD|UHD|SD|4K|8K)$', '', txt)` : strip one trailing
resolution marker (leftmost alternative wins, which on an end-anchored
pattern means the longest of FHD/UHD beats the embedded HD). -/
def stripResolutionSuffix (l : List Char) : List Char :=
  let r := l.reverse
  if r.take 3 = "FHD".data.reverse then (r.drop 3).reverse
  else if r.take 3 = "UHD".data.reverse then (r.drop 3).reverse
  else if r.take 2 = "HD".data.reverse then (r.drop 2).reverse
  else if r.take 2 = "SD".data.reverse then (r.drop 2).reverse
  else if r.take 2 = "4K".data.reverse then (r.drop 2).reverse
  else if r.take 2 = "8K".data.reverse then (r.drop 2).reverse
  else l

/-! ### `m3u_builder._normalize_epg_name` -/

/-- Port of `_normalize_epg_name` (m3u_builder.py): aggressive
normalization producing the technical grouping key, applied in the fixed
source order: strip + color tags, accent folding, upper-casing, numeral
replacements, bracket-span removal, `+` → `PLUS`, domain/«TV» suffixes,
letter–digit space collapse, alphanumeric filter, resolution suffix. -/
def normalizeEpgName (name : String) : String :=
  let txt := pyStrip name.data
  if txt = [] then "" else
  let txt := stripColorTags txt
  let txt := foldAccents txt
  let txt := txt.map pyUpperChar
  let txt := applyNumReplacements txt
  let txt := removeBracketSpans txt 0
  let txt := txt.flatMap (fun c => if c = '+' then "PLUS".data else [c])
  let txt := stripLiteralSuffixWs ".HU".data txt
  let txt := stripLiteralSuffixWs ".PORT.HU".data txt
  let txt := stripWsWordSuffix "TV".data txt
  let txt := stripWsWordSuffix "CSATORNA".data txt
  let txt := collapseSpaceBeforeDigit txt
  let txt := txt.filter (fun c => c.isDigit || ('A' ≤ c && c ≤ 'Z'))
  let txt := stripResolutionSuffix txt
  String.mk txt

/-- `_make_mapping_key` is `_normalize_epg_name`. -/
def makeMappingKey (name : String) : String := normalizeEpgName name

/-! ### `m3u_builder.ALIAS_DB` and the alias lookup engine -/

/-- `ALIAS_DB` (m3u_builder.py): canonical identity → surface forms, in
source order.  Longest variations come first inside each list. -/
def aliasDB : List (String × List String) :=
  [ ("RTL", ["RTL KLUB", "RTLKLUB", "RTL"])
  , ("TV2", ["TV2", "TV 2"])
  , ("RTL GOLD", ["RTL GOLD", "RTLGOLD"])
  , ("RTL 2", ["RTL 2", "RTL2", "RTL KETTO", "RTL II", "RTLKETTO"])
  , ("RTL 3", ["RTL 3", "RTL3", "RTL HAROM", "RTL III", "RTLHAROM", "RTL+"])
  , ("RTL OTTHON", ["RTL OTTHON", "RTLOTTHON"])
  , ("TV PAPRIKA", ["TV PAPRIKA", "TVPAPRIKA", "PAPRIKA TV", "PAPRIKA"])
  , ("TV2 COMEDY", ["TV2 COMEDY", "TV2COMEDY"])
  , ("TV2 KLUB", ["TV2 KLUB", "TV2KLUB", "FEM3"])
  , ("TV2 SÉF", ["TV2 SEF", "TV2SEF"])
  , ("TV4", ["TV4", "TV 4"])
  , ("SUPERTV2", ["SUPER TV2", "SUPERTV2", "SUPER TV 2"])
  , ("ATV SPIRIT", ["ATV SPIRIT", "ATVSPIRIT"])
  , ("ATV", ["ATV"])
  , ("M1", ["M1"])
  , ("M2 / PETŐFI TV", ["M2 / PETOFI", "M2 PETOFI", "M2"])
  , ("M5", ["M5"])
  , ("M4 SPORT+", ["M4 SPORT+", "M4 SPORT PLUS", "M4SPORT+", "M4SPORTPLUS", "M4 +", "M4+"])
  , ("M4 SPORT", ["M4 SPORT", "M4SPORT", "M4"])
  , ("DUNA WORLD", ["DUNA WORLD", "DUNAWORLD"])
  , ("DUNA", ["DUNA TV", "DUNA"])
  , ("HÍRTV", ["HIR TV", "HIRTV", "HIR"])
  , ("SPÍLER 1", ["SPILER 1", "SPILER1", "TV2 SPILER 1", "TV2 SPILER1"])
  , ("SPÍLER 2", ["SPILER 2", "SPILER2", "TV2 SPILER 2", "TV2 SPILER2"])
  , ("SPORT1", ["SPORT 1", "SPORT1"])
  , ("SPORT2", ["SPORT 2", "SPORT2"])
  , ("ARENA4", ["ARENA 4", "ARENA4"])
  , ("MATCH4", ["MATCH 4", "MATCH4"])
  , ("EUROSPORT 1", ["EUROSPORT 1", "EUROSPORT1"])
  , ("EUROSPORT 2", ["EUROSPORT 2", "EUROSPORT2"])
  , ("AUTO MOTOR ÉS SPORT", ["AUTO MOTOR ES SPORT", "AUTO MOTOR", "AUTOMOTOR"])
  , ("EXTREME SPORTS CHANNEL", ["EXTREME SPORTS CHANNEL", "EXTREME SPORTS", "EXTREMESPORTS"])
  , ("FISHING & HUNTING", ["FISHING & HUNTING", "FISHING AND HUNTING", "FISHING HUNTING", "F&H"])
  , ("FIT HD", ["FIT HD", "FIT TV", "FIT"])
  , ("DIGI SPORT 1", ["DIGI SPORT 1", "DIGISPORT 1", "DIGISPORT1"])
  , ("DIGI SPORT 2", ["DIGI SPORT 2", "DIGISPORT 2", "DIGISPORT2"])
  , ("AMC", ["AMC"])
  , ("AXN", ["AXN"])
  , ("COOL", ["COOL"])
  , ("FILM+", ["FILM+", "FILM +", "FILM PLUS", "FILMPLUS"])
  , ("FILM4", ["FILM 4", "FILM4"])
  , ("FILM MÁNIA", ["FILM MANIA", "FILMMANIA"])
  , ("FILM CAFÉ", ["FILM CAFE", "FILMCAFE"])
  , ("FILMBOX PREMIUM", ["FILMBOX PREMIUM", "FILMBOXPREMIUM"])
  , ("FILMBOX EXTRA HD", ["FILMBOX EXTRA HD", "FILMBOX EXTRA", "FILMBOXEXTRA"])
  , ("FILMBOX FAMILY", ["FILMBOX FAMILY", "FILMBOXFAMILY"])
  , ("FILMBOX STARS", ["FILMBOX STARS", "FILMBOXSTARS", "FILMBOX PLUS"])
  , ("FILMBOX", ["FILMBOX"])
  , ("FILMNOW", ["FILM NOW", "FILMNOW", "DIGI FILM"])
  , ("HBO 2", ["HBO 2", "HBO2"])
  , ("HBO 3", ["HBO 3", "HBO3"])
  , ("HBO", ["HBO"])
  , ("CINEMAX 2", ["CINEMAX 2", "CINEMAX2"])
  , ("CINEMAX", ["CINEMAX"])
  , ("PARAMOUNT NETWORK", ["PARAMOUNT NETWORK", "PARAMOUNT CHANNEL", "PARAMOUNT"])
  , ("PRIME", ["PRIME"])
  , ("MOZI+", ["MOZI+", "MOZI +", "MOZI PLUS", "MOZIPLUS", "MOZI HD"])
  , ("MOZIVERZUM", ["MOZIVERZUM"])
  , ("MAGYAR MOZI TV", ["MAGYAR MOZI TV", "MAGYAR MOZI", "MAGYARMOZI"])
  , ("SOROZAT+", ["SOROZAT+", "SOROZAT +", "SOROZAT PLUS", "SOROZATPLUS"])
  , ("STORY4", ["STORY 4", "STORY4"])
  , ("JOCKY TV", ["JOCKY TV", "JOCKYTV", "JOCKY"])
  , ("IZAURA TV", ["IZAURA TV", "IZAURATV", "IZAURA"])
  , ("EPIC DRAMA", ["EPIC DRAMA", "EPICDRAMA"])
  , ("VIASAT2", ["VIASAT 2", "VIASAT2", "SONY MAX"])
  , ("VIASAT3", ["VIASAT 3", "VIASAT3"])
  , ("VIASAT6", ["VIASAT 6", "VIASAT6"])
  , ("VIASAT FILM", ["VIASAT FILM", "VIASATFILM", "SONY MOVIE"])
  , ("STAR CHANNEL", ["STAR CHANNEL", "STARCHANNEL"])
  , ("MAX4", ["MAX4", "MAX 4"])
  , ("DISCOVERY SCIENCE", ["DISCOVERY SCIENCE", "DISC SCIENCE"])
  , ("DISCOVERY CHANNEL", ["DISCOVERY CHANNEL", "DISCOVERY"])
  , ("ANIMAL PLANET", ["ANIMAL PLANET"])
  , ("BBC EARTH", ["BBC EARTH"])
  , ("NAT GEO WILD", ["NAT GEO WILD", "NATGEO WILD", "NATGEOWILD"])
  , ("NATIONAL GEOGRAPHIC", ["NATIONAL GEOGRAPHIC", "NAT GEO", "NATGEO"])
  , ("SPEKTRUM HOME", ["SPEKTRUM HOME", "SPEKTRUMHOME"])
  , ("SPEKTRUM", ["SPEKTRUM"])
  , ("HISTORY 2", ["HISTORY 2", "HISTORY2"])
  , ("HISTORY", ["THE HISTORY CHANNEL", "HISTORY CHANNEL", "HISTORY"])
  , ("VIASAT EXPLORE", ["VIASAT EXPLORE", "VIASATEXPLORE"])
  , ("VIASAT HISTORY", ["VIASAT HISTORY", "VIASATHISTORY"])
  , ("VIASAT NATURE", ["VIASAT NATURE", "VIASATNATURE"])
  , ("VIASAT TRUE CRIME", ["VIASAT TRUE CRIME", "VIASAT CRIME"])
  , ("LOVE NATURE", ["LOVE NATURE", "LOVENATURE"])
  , ("OZONETV", ["OZONE TV", "OZONETV", "OZONE"])
  , ("TRAVEL XP", ["TRAVEL XP", "TRAVELXP"])
  , ("TRAVEL CHANNEL", ["TRAVEL CHANNEL", "TRAVEL"])
  , ("HGTV", ["HGTV"])
  , ("FOOD NETWORK", ["FOOD NETWORK", "FOOD"])
  , ("TLC", ["TLC"])
  , ("GALAXY4", ["GALAXY 4", "GALAXY4", "GALAXY"])
  , ("DA VINCI", ["DA VINCI", "DAVINCI"])
  , ("DIGI ANIMAL WORLD", ["DIGI ANIMAL WORLD", "DIGI WORLD", "DIGI ANIMAL"])
  , ("DIGI LIFE", ["DIGI LIFE", "DIGILIFE"])
  , ("ID", ["ID", "INVESTIGATION DISCOVERY", "DISCOVERY ID"])
  , ("CRIME & INVESTIGATION", ["CRIME & INVESTIGATION", "CRIME AND INVESTIGATION", "CRIME INV"])
  , ("NICKELODEON", ["NICKELODEON"])
  , ("NICK JR.", ["NICK JR", "NICKJR"])
  , ("NICKTOONS", ["NICKTOONS"])
  , ("TEENNICK", ["TEENNICK", "TEEN NICK"])
  , ("MINIMAX", ["MINIMAX"])
  , ("JIMJAM", ["JIMJAM", "JIM JAM"])
  , ("DISNEY CHANNEL", ["DISNEY CHANNEL", "DISNEY"])
  , ("DISNEY JUNIOR", ["DISNEY JUNIOR", "DISNEY JR"])
  , ("CARTOON NETWORK", ["CARTOON NETWORK", "CARTOON"])
  , ("CARTOONITO", ["CARTOONITO", "BOOMERANG"])
  , ("DUCK TV", ["DUCK TV", "DUCKTV", "DUCK"])
  , ("BABY TV", ["BABY TV", "BABYTV"])
  , ("KÖLYÖKKLUB", ["KOLYOKKLUB", "KOLYOK KLUB"])
  , ("TV2 KIDS", ["TV2 KIDS", "TV2KIDS", "KIWI"])
  , ("MTV 00S", ["MTV 00S", "MTV 00", "MTV00S"])
  , ("MTV 80S", ["MTV 80S", "MTV 80", "MTV80S"])
  , ("MTV 90S", ["MTV 90S", "MTV 90", "MTV90S"])
  , ("MTV HITS", ["MTV HITS", "MTVHITS"])
  , ("MTV LIVE", ["MTV LIVE", "MTVLIVE"])
  , ("MTV EUROPE", ["MTV EUROPE", "MTV"])
  , ("CLUB MTV", ["CLUB MTV"])
  , ("ZENEBUTIK", ["ZENEBUTIK"])
  , ("SLÁGER TV", ["SLAGER TV", "SLAGERTV"])
  , ("MUZSIKA TV", ["MUZSIKA TV", "MUZSIKATV"])
  , ("MEZZO LIVE", ["MEZZO LIVE"])
  , ("MEZZO", ["MEZZO"])
  , ("STINGRAY CLASSICA", ["STINGRAY CLASSICA", "CLASSICA"])
  , ("STINGRAY ICONCERTS", ["STINGRAY ICONCERTS", "ICONCERTS"])
  , ("COMEDY CENTRAL FAMILY", ["COMEDY CENTRAL FAMILY", "COMEDY FAMILY"])
  , ("COMEDY CENTRAL", ["COMEDY CENTRAL", "COMEDY"])
  , ("LIFETV", ["LIFETV", "LIFE TV"])
  , ("DIKH TV", ["DIKH TV", "DIKHTV", "DIKH"])
  , ("HETI TV", ["HETI TV", "HETITV"])
  , ("HATOSCSATORNA", ["HATOSCSATORNA", "HATOS"])
  , ("FIX TV", ["FIX TV", "FIXTV"])
  , ("D1 TV", ["D1 TV", "D1TV", "D1"])
  , ("APOSTOL TV", ["APOSTOL TV", "APOSTOL"])
  , ("PAX", ["PAX"])
  , ("EWTN", ["EWTN", "BONUM"])
  , ("SUPERONE", ["SUPER ONE", "SUPERONE"])
  , ("HUSTLER TV", ["HUSTLER TV", "HUSTLER"])
  , ("BRAZZERS TV EUROPE", ["BRAZZERS TV EUROPE", "BRAZZERS"])
  , ("PRIVATE TV", ["PRIVATE TV", "PRIVATE"])
  , ("PLAYBOY TV", ["PLAYBOY TV", "PLAYBOY"])
  , ("VIVID TV", ["VIVID TV", "VIVID"])
  , ("PASSION XXX", ["PASSION XXX", "PASSION"])
  , ("REDLIGHT HD", ["REDLIGHT HD", "REDLIGHT"])
  , ("DORCEL TV", ["DORCEL TV", "DORCEL"])
  , ("CENTO XCENTO", ["CENTO X CENTO", "CENTOXCENTO"])
  , ("DIRECT ONE HD", ["DIRECT ONE", "DIRECTONE"])
  ]

/-- Collapse every whitespace run to a single space (`re.sub(r'\s+', ' ', s)`). -/
def collapseSpacesAux (prevSp : Bool) : List Char → List Char
  | [] => []
  | c :: cs =>
    if isPySpace c then
      if prevSp then collapseSpacesAux true cs
      else ' ' :: collapseSpacesAux true cs
    else c :: collapseSpacesAux false cs

def collapseSpaces (l : List Char) : List Char := collapseSpacesAux false l

/-- Insert `x` into an already sorted list, after every element `y` with
`le y x` — so an element inserted later lands after equal elements, which
is exactly the stability guarantee of Python's sort. -/
def insertStableBy (le : α → α → Bool) (x : α) : List α → List α
  | [] => [x]
  | y :: ys => if le y x then y :: insertStableBy le x ys else x :: y :: ys

/-- Stable sort (insertion sort): the model of Python's stable
`list.sort` / `sorted`. -/
def pySortBy (le : α → α → Bool) (l : List α) : List α :=
  l.foldl (fun acc x => insertStableBy le x acc) []

/-- `_build_lookup_list` : flatten the alias table to `(surface form,
canonical id)` pairs, add the space-free variation of each form when it
differs, and stable-sort by surface-form length, longest first (Python
`list.sort(key=len, reverse=True)` is a stable sort). -/
def buildLookupList (db : List (String × List String)) : List (String × String) :=
  let lookup := db.foldl (fun acc p =>
    p.2.foldl (fun acc2 a =>
      let acc3 := acc2 ++ [(a, p.1)]
      let noSpace := String.mk (a.data.filter (fun c => c ≠ ' '))
      if noSpace ≠ a then acc3 ++ [(noSpace, p.1)] else acc3) acc) []
  pySortBy (fun a b => decide (b.1.length ≤ a.1.length)) lookup

/-- `_SORTED_ALIASES`, built once from `ALIAS_DB`. -/
def sortedAliases : List (String × String) := buildLookupList aliasDB

/-- The cleaning step of `identify_channel_id` : NFKD fold + combining
mark removal, upper-case, every character outside `[A-Z0-9]` replaced by
a space, whitespace runs collapsed, then stripped. -/
def cleanRawName (raw : String) : String :=
  let folded := foldAccents raw.data
  let upper := folded.map pyUpperChar
  let replaced := upper.map (fun c =>
    if c.isDigit || ('A' ≤ c && c ≤ 'Z') then c else ' ')
  String.mk (pyStrip (collapseSpaces replaced))

/-- The search loop of `identify_channel_id` : first surface form that is
a prefix of the cleaned name and is followed by end-of-string or a space
wins. -/
def identifyScan : List (String × String) → String → Option String
  | [], _ => none
  | (a, cid) :: rest, cleaned =>
    if cleaned.data.take a.data.length = a.data then
      let remaining := cleaned.data.drop a.data.length
      if remaining = [] || remaining.take 1 = [' '] then some cid
      else identifyScan rest cleaned
    else identifyScan rest cleaned

/-- `identify_channel_id` : raw channel name → canonical "pretty id". -/
def identifyChannelId (rawName : String) : Option String :=
  if rawName = "" then none
  else
    let cleaned := cleanRawName rawName
    if cleaned = "" then none
    else identifyScan sortedAliases cleaned

/-! ### Substring membership (`token in url`) and suffix test -/

/-- Python `needle in hay` on strings (substring containment). -/
def containsSubList (needle : List Char) : List Char → Bool
  | [] => decide (needle = [])
  | c :: cs =>
    decide ((c :: cs).take needle.length = needle) || containsSubList needle cs

def strContainsSub (hay needle : String) : Bool :=
  containsSubList needle.data hay.data

/-- Python `hay.endswith(suf)`. -/
def strEndsWith (hay suf : String) : Bool :=
  decide (hay.data.reverse.take suf.data.length = suf.data.reverse)

/-- `any(token in url for token in toks)`. -/
def containsAnyTok (url : String) (toks : List String) : Bool :=
  toks.any (fun t => strContainsSub url t)

/-- `str.lower()` (ASCII case mapping; stream URLs are ASCII). -/
def lowerStr (s : String) : String := String.mk (s.data.map pyLowerChar)

/-! ### playlist_source: data model of the variant selection engine -/

/-- One variant entry as the engine reads it.  Only the `"url"` field is
consulted, always through falsy-coalescing (`v.get("url") or ""` and
`if not raw_url`), so a missing url and an empty url coincide and are
modelled as `""`. -/
structure EngineVariant where
  url : String
deriving DecidableEq

/-- A catalog channel as the engine reads it: `channel_id`, base `url`
(read as `ch.get("url")`, falsy `""` = missing) and the variant list. -/
structure EngineChannel where
  channel_id : String
  url : String
  variants : List EngineVariant
deriving DecidableEq

/-- The persisted selection state (`_play_indices` + `_play_meta`):
per-channel integer indices, plus `last_channel` / `last_time`.
Timestamps are rationals standing for Python float epoch seconds. -/
structure PlayState where
  indices : List (String × Int)
  lastChannel : Option String
  lastTime : Int
deriving DecidableEq

/-- `self._play_indices.get(cid)` : the dict never holds duplicate keys,
the model reads the first binding. -/
def lookupIndex (st : PlayState) (cid : String) : Option Int :=
  (st.indices.find? (fun p => decide (p.1 = cid))).map Prod.snd

/-- `self._play_indices.get(cid, 0)` — what a channel's selected index
reads as. -/
def readIndex (st : PlayState) (cid : String) : Int :=
  (lookupIndex st cid).getD 0

/-- `self._play_indices[cid] = v` : dict assignment. -/
def setIndex (st : PlayState) (cid : String) (v : Int) : PlayState :=
  { st with indices :=
      (cid, v) :: st.indices.filter (fun p => !(decide (p.1 = cid))) }

/-- The engine's configuration: the `prefer_quality` and `mag_support`
settings, and the external `MagSession.build_kodi_play_url` collaborator
used by `_build_mag_url`. -/
structure EngineConfig where
  preferQuality : Bool
  magSupport : Bool
  buildMag : String → String

/-- `_is_mag_url`. -/
def isMagUrl (url : String) : Bool :=
  if url = "" then false
  else
    let u := lowerStr url
    strContainsSub u "/c/" ||
      (strContainsSub u "live.php" && strContainsSub u "mac=")

/-- `resolve_variant_url` : MAG/Ministra URLs are rewritten by the
external stalker client when `mag_support` is on. -/
def resolveVariantUrl (cfg : EngineConfig) (url : String) : String :=
  if cfg.magSupport && isMagUrl url then cfg.buildMag url else url

/-- `get_channel_by_id` : `None` for a falsy id, else the first catalog
channel with that `channel_id`. -/
def getChannelById (catalog : List EngineChannel) (cid : String) :
    Option EngineChannel :=
  if cid = "" then none
  else catalog.find? (fun ch => decide (ch.channel_id = cid))

/-- `_quality_score` (the closure defined identically inside
`get_play_url` and `set_preferred_variant`): token heuristics on the
lowered URL; the returned value is the sort key `-score`. -/
def qualityScore (v : EngineVariant) : Int :=
  let url := lowerStr v.url
  let score : Int := 0
  let score := if containsAnyTok url ["mobile", "low", "lowres", "/sd/", "_sd", "-sd"]
    then score - 15 else score
  let score := if containsAnyTok url ["2160", "4k", "uhd"] then score + 40 else score
  let score := if containsAnyTok url ["1080", "fhd"] then score + 30 else score
  let score := if containsAnyTok url ["720", "hd"] then score + 20 else score
  let score := if strContainsSub url "480" then score + 5 else score
  let score := if strEndsWith url ".m3u8" || strContainsSub url "/hls" ||
      strContainsSub url "playlist.m3u8" then score + 10 else score
  let score := if containsAnyTok url [".mp3", "radio="] then score - 5 else score;
  -score

/-- `candidates = sorted(variants, key=_quality_score)` when
`prefer_quality` is set, else the raw variant list.  Python's `sorted`
is stable. -/
def rankCandidates (preferQuality : Bool) (variants : List EngineVariant) :
    List EngineVariant :=
  if preferQuality then
    pySortBy (fun a b => decide (qualityScore a ≤ qualityScore b)) variants
  else variants

/-- `prev_index = int(self._play_indices.get(cid, 0) or 0)` followed by
the range clamp to 0 (`if prev_index < 0 or prev_index >= len(candidates)`). -/
def prevIndexOf (st : PlayState) (cid : String) (n : Nat) : Int :=
  let prev := (lookupIndex st cid).getD 0
  if prev < 0 || prev ≥ (n : Int) then 0 else prev

/-- The raw-index normalization shared verbatim by `get_manual_play_url`
and `set_preferred_variant`: `int(variant_index)` (0 when `int` raises,
modelled by `none`), clamp negatives to 0 and overshoots to `n - 1`. -/
def clampManualIndex (arg : Option Int) (n : Nat) : Int :=
  let i0 := arg.getD 0
  let i1 := if i0 < 0 then 0 else i0
  if i1 ≥ (n : Int) then (n : Int) - 1 else i1

/-- The `for idx, v in enumerate(candidates): if v.url == chosen_url:
target_index = idx; break` loop of `set_preferred_variant` (0 when the
URL is not found). -/
def findTargetIndex (candidates : List EngineVariant) (url : String) : Int :=
  match candidates.findIdx? (fun v => decide (v.url = url)) with
  | some i => (i : Int)
  | none => 0

/-- `get_play_url` (AUTO mode): quick re-click on the same channel within
20 seconds advances to the next ranked candidate, wrapping at the end;
otherwise the persisted index is kept.  State is persisted on every call
that reaches the selection step.  A (never reached) out-of-range list
access models Python's `IndexError` as `.error`. -/
def getPlayUrl (cfg : EngineConfig) (catalog : List EngineChannel)
    (st : PlayState) (channelId : String) (now : Int) :
    Except String (Option String × PlayState) :=
  match getChannelById catalog channelId with
  | none => .ok (none, st)
  | some ch =>
    let variants := ch.variants
    if variants = [] then
      .ok ((if ch.url ≠ "" then some (resolveVariantUrl cfg ch.url) else none), st)
    else
      let candidates := rankCandidates cfg.preferQuality variants
      if candidates = [] then .ok (none, st)
      else
        let cid := channelId
        let prev := prevIndexOf st cid candidates.length
        let quickRetry :=
          decide (st.lastChannel = some cid) && decide (now - st.lastTime < 20)
        let index :=
          if quickRetry then
            (if prev + 1 ≥ (candidates.length : Int) then 0 else prev + 1)
          else prev
        let st2 :=
          { setIndex st cid index with lastChannel := some cid, lastTime := now }
        match candidates.get? index.toNat with
        | none => .error "IndexError"
        | some chosen =>
          if chosen.url = "" then .ok (none, st2)
          else .ok (some (resolveVariantUrl cfg chosen.url), st2)

/-- `get_manual_play_url` (MANUAL mode): clamp the raw index into the
unranked variant list, persist that clamped index and the meta pair,
return that variant's URL.  No 20-second logic. -/
def getManualPlayUrl (cfg : EngineConfig) (catalog : List EngineChannel)
    (st : PlayState) (channelId : String) (variantIndex : Option Int)
    (now : Int) : Except String (Option String × PlayState) :=
  match getChannelById catalog channelId with
  | none => .ok (none, st)
  | some ch =>
    let variants := ch.variants
    if variants = [] then
      .ok ((if ch.url ≠ "" then some (resolveVariantUrl cfg ch.url) else none), st)
    else
      let idx := clampManualIndex variantIndex variants.length
      let cid := channelId
      let st2 :=
        { setIndex st cid idx with lastChannel := some cid, lastTime := now }
      match variants.get? idx.toNat with
      | none => .error "IndexError"
      | some chosen =>
        if chosen.url = "" then .ok (none, st2)
        else .ok (some (resolveVariantUrl cfg chosen.url), st2)

/-- `set_preferred_variant` : locate the manually chosen variant's URL in
the ranked candidate list and persist that rank position (plus the meta
pair).  Returns the new state. -/
def setPreferredVariant (cfg : EngineConfig) (catalog : List EngineChannel)
    (st : PlayState) (channelId : String) (variantIndex : Option Int)
    (now : Int) : Except String PlayState :=
  match getChannelById catalog channelId with
  | none => .ok st
  | some ch =>
    let variants := ch.variants
    if variants = [] then .ok st
    else
      let rawIndex := clampManualIndex variantIndex variants.length
      let candidates := rankCandidates cfg.preferQuality variants
      if candidates = [] then .ok st
      else
        match variants.get? rawIndex.toNat with
        | none => .error "IndexError"
        | some chosenRaw =>
          let targetIndex := findTargetIndex candidates chosenRaw.url
          let cid := channelId
          .ok { setIndex st cid targetIndex with
                lastChannel := some cid, lastTime := now }

/-! ### Resolution markers for the quality-ranking claim -/

/-- The resolution markers named by the ranking specification. -/
inductive ResMarker
  | m480 | m720 | mHD | m1080 | mFHD | m2160 | m4K | mUHD
deriving DecidableEq

/-- The URL token of each marker (as matched, lower-case). -/
def resMarkerStr : ResMarker → String
  | .m480 => "480" | .m720 => "720" | .mHD => "hd" | .m1080 => "1080"
  | .mFHD => "fhd" | .m2160 => "2160" | .m4K => "4k" | .mUHD => "uhd"

/-- The exact value `_quality_score` adds for a URL whose only scored
token is that single marker.  Because `fhd` and `uhd` contain the
substring `hd`, they also collect the `720/hd` bonus of 20: the scores
are 480 ↦ 5, 720/HD ↦ 20, 1080 ↦ 30, 2160/4K ↦ 40, FHD ↦ 50, UHD ↦ 60. -/
def resMarkerScore : ResMarker → Int
  | .m480 => 5 | .m720 => 20 | .mHD => 20 | .m1080 => 30
  | .mFHD => 50 | .m2160 => 40 | .m4K => 40 | .mUHD => 60

/-- The tier of each marker in the order the claim states:
480 < 720/HD < 1080/FHD < 2160/4K/UHD. -/
def resMarkerTier : ResMarker → Nat
  | .m480 => 0 | .m720 => 1 | .mHD => 1 | .m1080 => 2 | .mFHD => 2
  | .m2160 => 3 | .m4K => 3 | .mUHD => 3

/-- «the URL contains exactly the one resolution marker `m` and no other
scored token»: a complete characterization of every substring test
`_quality_score` performs, including the containments forced by token
overlap (`fhd`/`uhd` contain `hd`). -/
def onlyMarker (m : ResMarker) (v : EngineVariant) : Prop :=
  containsAnyTok (lowerStr v.url)
    ["mobile", "low", "lowres", "/sd/", "_sd", "-sd"] = false ∧
  containsAnyTok (lowerStr v.url) ["2160", "4k", "uhd"]
    = decide (m = ResMarker.m2160 ∨ m = ResMarker.m4K ∨ m = ResMarker.mUHD) ∧
  containsAnyTok (lowerStr v.url) ["1080", "fhd"]
    = decide (m = ResMarker.m1080 ∨ m = ResMarker.mFHD) ∧
  containsAnyTok (lowerStr v.url) ["720", "hd"]
    = decide (m = ResMarker.m720 ∨ m = ResMarker.mHD ∨
              m = ResMarker.mFHD ∨ m = ResMarker.mUHD) ∧
  strContainsSub (lowerStr v.url) "480" = decide (m = ResMarker.m480) ∧
  (strEndsWith (lowerStr v.url) ".m3u8" ||
   strContainsSub (lowerStr v.url) "/hls" ||
   strContainsSub (lowerStr v.url) "playlist.m3u8") = false ∧
  containsAnyTok (lowerStr v.url) [".mp3", "radio="] = false

instance (m : ResMarker) (v : EngineVariant) : Decidable (onlyMarker m v) := by
  unfold onlyMarker
  infer_instance

/-! ### The M3U playlist parser (`_parse_m3u_channels`) -/

/-- `str.strip()` on a `String`. -/
def strStrip (s : String) : String := String.mk (pyStrip s.data)

/-- `line.rstrip("\r\n")`. -/
def rstripCR (l : List Char) : List Char :=
  (l.reverse.dropWhile (fun c => c = '\r' || c = '\n')).reverse

/-- `s.startswith(pre)` on character lists. -/
def listStartsWith (pre l : List Char) : Bool :=
  decide (l.take pre.length = pre)

/-- One parsed playlist entry (the dicts `_parse_m3u_channels` emits and
`ensure_assets` consumes).  Every read of these dicts is falsy-coalesced
(`c.get(k) or ...` / `if val:`), so an absent key and an empty value
coincide: `""` (`[]` for `kodiprops`) stands for both. -/
structure ParsedChannel where
  name : String
  url : String
  tvg_id : String := ""
  tvg_logo : String := ""
  group_title : String := ""
  tvg_name : String := ""
  kodiprops : List String := []
deriving DecidableEq

/-- The metadata block of one `#EXTINF` line (`current` in the source). -/
structure ExtinfMeta where
  name : String := ""
  tvg_id : String := ""
  tvg_name : String := ""
  tvg_logo : String := ""
  group_title : String := ""
  kodiprops : List String := []
deriving DecidableEq

/-- Split a character list at its first comma. -/
def splitAtFirstComma : List Char → Option (List Char × List Char)
  | [] => none
  | c :: cs =>
    if c = ',' then some ([], cs)
    else (splitAtFirstComma cs).map (fun p => (c :: p.1, p.2))

/-- The remainder after the first occurrence of `pat`, if any
(the scan of `re.search` for a literal prefix). -/
def findSubRest (pat : List Char) : List Char → Option (List Char)
  | [] => if pat = [] then some [] else none
  | c :: cs =>
    if (c :: cs).take pat.length = pat then some ((c :: cs).drop pat.length)
    else findSubRest pat cs

/-- `re.search(key + '="([^"]*)"', attrs)` : the text between the first
`key="` and the next quote, stripped; `none` when the key or the closing
quote is missing. -/
def extractAttr (attrs : List Char) (key : List Char) : Option String :=
  match findSubRest (key ++ ['=', '"']) attrs with
  | none => none
  | some rest =>
    if rest.any (fun c => c = '"') then
      some (String.mk (pyStrip (rest.takeWhile (fun c => c ≠ '"'))))
    else none

/-- The anchored `#EXTINF:-?\d+\s*(.*?),(.*)$` match: `(attrs_part,
name_part)`, both stripped (the lazy group splits at the first comma
after the leading digits; the `\s*` is absorbed by the strip). -/
def matchExtinf (s : List Char) : Option (List Char × List Char) :=
  if s.take 8 = "#EXTINF:".data then
    let r0 := s.drop 8
    let r1 := match r0 with
      | '-' :: r => r
      | _ => r0
    let digits := r1.takeWhile Char.isDigit
    if digits = [] then none
    else
      match splitAtFirstComma (r1.drop digits.length) with
      | some (before, after) => some (pyStrip before, pyStrip after)
      | none => none
  else none

/-- Parse one `#EXTINF` line into a fresh `current` block, with the
comma-split fallback of the source when the anchored regex fails. -/
def parseExtinf (s : List Char) : ExtinfMeta :=
  let (attrsPart, namePart) :=
    match matchExtinf s with
    | some (a, n) => (a, n)
    | none =>
      match splitAtFirstComma s with
      | some (_, after) => (([] : List Char), pyStrip after)
      | none => (([] : List Char), ([] : List Char))
  { name := String.mk namePart
    tvg_id := (extractAttr attrsPart "tvg-id".data).getD ""
    tvg_name := (extractAttr attrsPart "tvg-name".data).getD ""
    tvg_logo := (extractAttr attrsPart "tvg-logo".data).getD ""
    group_title := (extractAttr attrsPart "group-title".data).getD "" }

/-- `_flush_current_with_url` : close the pending entry with a URL line.
A URL with no preceding `#EXTINF` yields the minimal entry whose name is
the URL itself; either way `current` resets to `None`. -/
def flushCurrentWithUrl (st : List ParsedChannel × Option ExtinfMeta)
    (url : List Char) : List ParsedChannel × Option ExtinfMeta :=
  if url = [] then (st.1, none)
  else
    let u := String.mk url
    match st.2 with
    | none => (st.1 ++ [{ name := u, url := u }], none)
    | some cur =>
      let nm := strStrip
        (if cur.name ≠ "" then cur.name
         else if cur.tvg_name ≠ "" then cur.tvg_name else u)
      (st.1 ++ [{ name := nm, url := u, tvg_id := cur.tvg_id,
                  tvg_logo := cur.tvg_logo, group_title := cur.group_title,
                  tvg_name := cur.tvg_name, kodiprops := cur.kodiprops }],
       none)

/-- One iteration of the parser loop over a raw line. -/
def parseStep (st : List ParsedChannel × Option ExtinfMeta) (ln : String) :
    List ParsedChannel × Option ExtinfMeta :=
  let s := rstripCR ln.data
  if pyStrip s = [] then st
  else if listStartsWith "#EXTINF".data s then (st.1, some (parseExtinf s))
  else if listStartsWith "#KODIPROP:".data s then
    match st.2 with
    | none => st
    | some cur =>
      let prop := pyStrip (s.drop "#KODIPROP:".data.length)
      if prop = [] then (st.1, some cur)
      else (st.1, some { cur with kodiprops := cur.kodiprops ++ [String.mk prop] })
  else if listStartsWith "#".data s then st
  else flushCurrentWithUrl st (pyStrip s)

/-- `_parse_m3u_channels` over an already split line list. -/
def parseM3uLines (lines : List String) : List ParsedChannel :=
  (lines.foldl parseStep ([], none)).1

/-- `text.splitlines()` for the line endings `\n`, `\r\n` and `\r`. -/
def splitLinesAux (acc : List Char) : List Char → List String
  | [] => if acc = [] then [] else [String.mk acc.reverse]
  | '\r' :: '\n' :: r => String.mk acc.reverse :: splitLinesAux [] r
  | '\r' :: r => String.mk acc.reverse :: splitLinesAux [] r
  | '\n' :: r => String.mk acc.reverse :: splitLinesAux [] r
  | c :: r => splitLinesAux (c :: acc) r

/-- `_parse_m3u_channels` : raw M3U-like text to entries. -/
def parseM3uChannels (text : String) : List ParsedChannel :=
  parseM3uLines (splitLinesAux [] text.data)

/-! ### `_normalize_name` and the aggregation of `ensure_assets` -/

/-- The word alternatives of the HD-marker pattern
`(HD|FHD|UHD|4K|SD|1080p?|720p?)` in alternation order (`p?` greedy), as
lower-case tokens for the case-insensitive match. -/
def hdMarkerWords : List (List Char) :=
  ["hd".data, "fhd".data, "uhd".data, "4k".data, "sd".data,
   "1080p".data, "1080".data, "720p".data, "720".data]

/-- Case-insensitive match of one marker word at the head of `l`, with
the trailing `\b` (next character absent or not a word character). -/
def matchMarkerWord (l : List Char) : Option Nat :=
  (hdMarkerWords.filterMap (fun w =>
    if (l.take w.length).map pyLowerChar = w then
      match l.drop w.length with
      | [] => some w.length
      | d :: _ => if isWordChar d then none else some w.length
    else none)).head?

/-- Match of `(\s*[-+_]?\s*)\b(HD|FHD|UHD|4K|SD|1080p?|720p?)\b` at the
head of `l`.  The greedy groups commit to the maximal munch: a shorter
group could only make the word start on a space or on the separator
character, where no alternative can match, so maximal munch is exact.
`prevWord` tells whether the character before `l` is a word character
(for the left `\b` when the whole group is empty). -/
def matchHdMarker (prevWord : Bool) (l : List Char) : Option Nat :=
  let a := (l.takeWhile isPySpace).length
  let rest1 := l.drop a
  let (dashLen, dashWord, rest2) :=
    match rest1 with
    | c :: r =>
      if c = '-' || c = '+' || c = '_' then (1, isWordChar c, r)
      else (0, false, rest1)
    | [] => (0, false, rest1)
  let b := (rest2.takeWhile isPySpace).length
  let rest3 := rest2.drop b
  let boundaryOk :=
    if b > 0 then true
    else if dashLen = 1 then !dashWord
    else if a > 0 then true
    else !prevWord
  if boundaryOk then
    (matchMarkerWord rest3).map (fun wlen => a + dashLen + b + wlen)
  else none

/-- Global removal of the HD-marker pattern, resuming after each match
(on the original text, as `re.sub` does).  A match is at least two
characters long, so fuel equal to the length never runs out. -/
def removeHdMarkersFuel : Nat → Bool → List Char → List Char
  | 0, _, l => l
  | _ + 1, _, [] => []
  | n + 1, prevWord, c :: cs =>
    match matchHdMarker prevWord (c :: cs) with
    | some k =>
      removeHdMarkersFuel n
        (match ((c :: cs).take k).getLast? with
         | some x => isWordChar x
         | none => prevWord)
        ((c :: cs).drop k)
    | none => c :: removeHdMarkersFuel n (isWordChar c) cs

def removeHdMarkers (l : List Char) : List Char :=
  removeHdMarkersFuel l.length false l

/-- `_normalize_name` (PlaylistCoordinator): accent folding, strip,
removal of HD/resolution markers with their separator, whitespace
collapse, strip. -/
def normalizeName (name : String) : String :=
  if name = "" then ""
  else
    let n := foldAccents name.data
    let n := pyStrip n
    let n := removeHdMarkers n
    let n := collapseSpaces n
    String.mk (pyStrip n)

/-- `_make_channel_id` : lower-cased, trimmed display name. -/
def makeChannelId (name : String) : String :=
  lowerStr (strStrip name)

/-- Step 4 of `ensure_assets` : drop entries with a falsy name or url,
de-duplicate on the exact `(name, url)` pair keeping the first, and
rebuild each entry from the stripped name/url plus its truthy meta
fields (`tvg_name` is not among the copied meta keys). -/
def dedupeEntriesAux (seen : List (String × String)) :
    List ParsedChannel → List ParsedChannel
  | [] => []
  | c :: cs =>
    let name := strStrip c.name
    let url := strStrip c.url
    if name = "" || url = "" then dedupeEntriesAux seen cs
    else if (name, url) ∈ seen then dedupeEntriesAux seen cs
    else
      { name := name, url := url, tvg_id := c.tvg_id, tvg_logo := c.tvg_logo,
        group_title := c.group_title, kodiprops := c.kodiprops }
        :: dedupeEntriesAux ((name, url) :: seen) cs

/-- `groups.setdefault(key, []).append(item)` on an insertion-ordered
association list. -/
def appendGroup (groups : List (String × List ParsedChannel)) (key : String)
    (item : ParsedChannel) : List (String × List ParsedChannel) :=
  match groups with
  | [] => [(key, [item])]
  | (k, items) :: rest =>
    if k = key then (k, items ++ [item]) :: rest
    else (k, items) :: appendGroup rest key item

/-- `if key not in name_map: name_map[key] = clean_name`. -/
def addNameMap (nm : List (String × String)) (key clean : String) :
    List (String × String) :=
  if nm.any (fun p => decide (p.1 = key)) then nm else nm ++ [(key, clean)]

def lookupAssoc (nm : List (String × String)) (key : String) : Option String :=
  (nm.find? (fun p => decide (p.1 = key))).map Prod.snd

/-- The grouping key of one entry: `_normalize_name(raw) or raw`, all
whitespace removed, lower-cased — and the clean display name that goes
into `name_map`. -/
def groupKeyOf (rawName : String) : String × String :=
  let clean0 := normalizeName rawName
  let clean := if clean0 = "" then rawName else clean0
  (lowerStr (String.mk (clean.data.filter (fun c => !isPySpace c))), clean)

/-- Step 5 first half: group de-duplicated entries by key, first-seen
order of groups and of the variants inside a group, and record the
first-seen clean name per key. -/
def buildGroupsAux (groups : List (String × List ParsedChannel))
    (nm : List (String × String)) :
    List ParsedChannel →
      List (String × List ParsedChannel) × List (String × String)
  | [] => (groups, nm)
  | item :: rest =>
    let rawName := strStrip item.name
    let kc := groupKeyOf rawName
    buildGroupsAux (appendGroup groups kc.1 item) (addNameMap nm kc.1 kc.2) rest

/-- One CanonicalChannel as `ensure_assets` builds it. -/
structure GroupedChannel where
  channel_id : String
  display_name : String
  name : String
  url : String
  chType : String
  variants : List ParsedChannel
  group_key : String
  tvg_id : String := ""
  tvg_logo : String := ""
  group_title : String := ""
  kodiprops : List String := []
deriving DecidableEq

/-- Step 5 second half: one channel per group; display name is the
recorded first-seen clean name (falling back to the first variant's
name), the base url and the meta come from the first variant.  A group
is never empty by construction (`none` models the impossible
`variants[0]` failure). -/
def buildGroupedChannel (nm : List (String × String)) (key : String)
    (variants : List ParsedChannel) : Option GroupedChannel :=
  match variants with
  | [] => none
  | primary :: _ =>
    let d0 := (lookupAssoc nm key).getD ""
    let displayName := if d0 ≠ "" then d0 else primary.name
    some
      { channel_id := makeChannelId displayName
        display_name := displayName
        name := displayName
        url := primary.url
        chType := "tv"
        variants := variants
        group_key := key
        tvg_id := primary.tvg_id
        tvg_logo := primary.tvg_logo
        group_title := primary.group_title
        kodiprops := primary.kodiprops }

/-- Steps 4 and 5 of `ensure_assets` : raw parsed entries to the grouped
canonical channel list. -/
def aggregateChannels (channels : List ParsedChannel) : List GroupedChannel :=
  let uniq := dedupeEntriesAux [] channels
  let gp := buildGroupsAux [] [] uniq
  gp.1.filterMap (fun p => buildGroupedChannel gp.2 p.1 p.2)

/-! ### JSON and `_load_play_state` -/

/-- JSON values (`json.loads` output).  Numbers are kept unevaluated as
`mantissa * 10 ^ exp10` so that parsing stays kernel-computable. -/
inductive Json where
  | null
  | jbool (b : Bool)
  | jnum (mantissa : Int) (exp10 : Int)
  | jstr (s : String)
  | jarr (elems : List Json)
  | jobj (fields : List (String × Json))

/-- JSON whitespace. -/
def skipWs (l : List Char) : List Char :=
  l.dropWhile (fun c => c = ' ' || c = '\t' || c = '\n' || c = '\r')

def hexVal (c : Char) : Option Nat :=
  if '0' ≤ c ∧ c ≤ '9' then some (c.toNat - '0'.toNat)
  else if 'a' ≤ c ∧ c ≤ 'f' then some (c.toNat - 'a'.toNat + 10)
  else if 'A' ≤ c ∧ c ≤ 'F' then some (c.toNat - 'A'.toNat + 10)
  else none

/-- JSON string body after the opening quote: strict escapes, no raw
control characters. -/
def parseJsonStringAux (acc : List Char) : List Char → Option (String × List Char)
  | [] => none
  | '"' :: r => some (String.mk acc.reverse, r)
  | '\\' :: e :: r =>
    match e with
    | '"' => parseJsonStringAux ('"' :: acc) r
    | '\\' => parseJsonStringAux ('\\' :: acc) r
    | '/' => parseJsonStringAux ('/' :: acc) r
    | 'b' => parseJsonStringAux ('\x08' :: acc) r
    | 'f' => parseJsonStringAux ('\x0c' :: acc) r
    | 'n' => parseJsonStringAux ('\n' :: acc) r
    | 'r' => parseJsonStringAux ('\r' :: acc) r
    | 't' => parseJsonStringAux ('\t' :: acc) r
    | 'u' =>
      match r with
      | h1 :: h2 :: h3 :: h4 :: r2 =>
        match hexVal h1, hexVal h2, hexVal h3, hexVal h4 with
        | some x1, some x2, some x3, some x4 =>
          parseJsonStringAux
            (Char.ofNat (((x1 * 16 + x2) * 16 + x3) * 16 + x4) :: acc) r2
        | _, _, _, _ => none
      | _ => none
    | _ => none
  | c :: r =>
    if c.toNat < 32 then none else parseJsonStringAux (c :: acc) r

def digitsToInt (ds : List Char) : Int :=
  ds.foldl (fun acc c => acc * 10 + (c.toNat - '0'.toNat : Int)) 0

/-- Strict JSON number: `-? (0 | [1-9][0-9]*) (. [0-9]+)? ([eE][+-]?[0-9]+)?`,
returned as `(mantissa, exp10)`. -/
def parseJsonNumber (l : List Char) : Option ((Int × Int) × List Char) :=
  let (sign, r0) : Int × List Char :=
    match l with
    | '-' :: r => (-1, r)
    | _ => (1, l)
  let intDigits :=
    match r0 with
    | '0' :: _ => ['0']
    | _ => r0.takeWhile Char.isDigit
  if intDigits = [] then none
  else
    let r1 := r0.drop intDigits.length
    let (fracDigits, r2) :=
      match r1 with
      | '.' :: rf =>
        let fd := rf.takeWhile Char.isDigit
        (fd, rf.drop fd.length)
      | _ => ([], r1)
    if r1 ≠ r2 ∧ fracDigits = [] then none
    else
      match r2 with
      | 'e' :: re0 | 'E' :: re0 =>
        let (esign, re1) : Int × List Char :=
          match re0 with
          | '+' :: r => (1, r)
          | '-' :: r => (-1, r)
          | _ => (1, re0)
        let expDigits := re1.takeWhile Char.isDigit
        if expDigits = [] then none
        else
          some ((sign * digitsToInt (intDigits ++ fracDigits),
                 esign * digitsToInt expDigits - (fracDigits.length : Int)),
                re1.drop expDigits.length)
      | _ =>
        some ((sign * digitsToInt (intDigits ++ fracDigits),
               -(fracDigits.length : Int)), r2)

/-- The three recursion modes of the fuelled JSON parser: a value, the
tail of an array after one element, the tail of an object after one
member. -/
inductive JMode where
  | value | arr | obj

/-- Parse result of one mode. -/
inductive JPart where
  | jv (j : Json)
  | jl (l : List Json)
  | jm (l : List (String × Json))

/-- Recursive-descent JSON parser.  Every recursive call happens after at
least one character of the input was consumed, so fuel `length + 1`
never runs out; fuel keeps the mutual recursion structural. -/
def parseJ : Nat → JMode → List Char → Option (JPart × List Char)
  | 0, _, _ => none
  | f + 1, .value, l =>
    match l with
    | 'n' :: 'u' :: 'l' :: 'l' :: r => some (.jv .null, r)
    | 't' :: 'r' :: 'u' :: 'e' :: r => some (.jv (.jbool true), r)
    | 'f' :: 'a' :: 'l' :: 's' :: 'e' :: r => some (.jv (.jbool false), r)
    | '"' :: r =>
      match parseJsonStringAux [] r with
      | some (s, r2) => some (.jv (.jstr s), r2)
      | none => none
    | '[' :: r =>
      match skipWs r with
      | ']' :: r2 => some (.jv (.jarr []), r2)
      | r1 =>
        match parseJ f .value r1 with
        | some (.jv v, r2) =>
          match parseJ f .arr (skipWs r2) with
          | some (.jl vs, r3) => some (.jv (.jarr (v :: vs)), r3)
          | _ => none
        | _ => none
    | '\x7b' :: r =>
      match skipWs r with
      | '\x7d' :: r2 => some (.jv (.jobj []), r2)
      | '"' :: r2 =>
        match parseJsonStringAux [] r2 with
        | some (k, r3) =>
          match skipWs r3 with
          | ':' :: r4 =>
            match parseJ f .value (skipWs r4) with
            | some (.jv v, r5) =>
              match parseJ f .obj (skipWs r5) with
              | some (.jm ms, r6) => some (.jv (.jobj ((k, v) :: ms)), r6)
              | _ => none
            | _ => none
          | _ => none
        | none => none
      | _ => none
    | _ =>
      match parseJsonNumber l with
      | some ((m, e), r) => some (.jv (.jnum m e), r)
      | none => none
  | f + 1, .arr, l =>
    match l with
    | ']' :: r => some (.jl [], r)
    | ',' :: r =>
      match parseJ f .value (skipWs r) with
      | some (.jv v, r2) =>
        match parseJ f .arr (skipWs r2) with
        | some (.jl vs, r3) => some (.jl (v :: vs), r3)
        | _ => none
      | _ => none
    | _ => none
  | f + 1, .obj, l =>
    match l with
    | '\x7d' :: r => some (.jm [], r)
    | ',' :: r =>
      match skipWs r with
      | '"' :: r2 =>
        match parseJsonStringAux [] r2 with
        | some (k, r3) =>
          match skipWs r3 with
          | ':' :: r4 =>
            match parseJ f .value (skipWs r4) with
            | some (.jv v, r5) =>
              match parseJ f .obj (skipWs r5) with
              | some (.jm ms, r6) => some (.jm ((k, v) :: ms), r6)
              | _ => none
            | _ => none
          | _ => none
        | none => none
      | _ => none
    | _ => none

/-- `json.loads` : one JSON document with nothing but whitespace around
it; `none` models the raised `ValueError`. -/
def parseJson (txt : String) : Option Json :=
  match parseJ (txt.data.length + 1) JMode.value (skipWs txt.data) with
  | some (.jv v, rest) => if skipWs rest = [] then some v else none
  | _ => none

/-- Python-dict lookup on a JSON object's field list: the last binding
of a repeated key wins, as in the dict `json.loads` builds. -/
def jsonGet (fields : List (String × Json)) (key : String) : Option Json :=
  (fields.reverse.find? (fun p => decide (p.1 = key))).map Prod.snd

def jsonHasKey (fields : List (String × Json)) (key : String) : Bool :=
  fields.any (fun p => decide (p.1 = key))

/-- `dict.items()` of the dict `json.loads` builds from a field list:
unique keys in first-occurrence order, each with its last value. -/
def jsonItems (fields : List (String × Json)) : List (String × Json) :=
  fields.foldl (fun acc p =>
    if acc.any (fun q => decide (q.1 = p.1)) then
      acc.map (fun q => if q.1 = p.1 then (q.1, p.2) else q)
    else acc ++ [p]) []

/-- Python truthiness of a JSON value. -/
def jsonTruthy : Json → Bool
  | .null => false
  | .jbool b => b
  | .jnum m _ => decide (m ≠ 0)
  | .jstr s => decide (s ≠ "")
  | .jarr l => !l.isEmpty
  | .jobj f => !f.isEmpty

/-- `int("...")` : optional surrounding whitespace, optional sign, one or
more digits. -/
def pyIntOfString (s : String) : Option Int :=
  let t := pyStrip s.data
  let (sign, ds) : Int × List Char :=
    match t with
    | '-' :: r => (-1, r)
    | '+' :: r => (1, r)
    | _ => (1, t)
  if ds ≠ [] ∧ ds.all Char.isDigit then some (sign * digitsToInt ds) else none

/-- `int(v)` on a JSON value: numbers truncate toward zero, booleans are
0/1, digit strings parse, everything else raises (`none`). -/
def pyInt : Json → Option Int
  | .jnum m e =>
    some (if 0 ≤ e then m * (10 : Int) ^ e.toNat
          else Int.tdiv m ((10 : Int) ^ (-e).toNat))
  | .jbool b => some (if b then 1 else 0)
  | .jstr s => pyIntOfString s
  | _ => none

/-- `float(v)` in the integer-seconds time model (fractions truncate;
every timestamp the engine compares in the claims is integral): numbers
and booleans convert, numeric strings parse, everything else raises. -/
def pyFloatTime : Json → Option Int
  | .jnum m e =>
    some (if 0 ≤ e then m * (10 : Int) ^ e.toNat
          else Int.tdiv m ((10 : Int) ^ (-e).toNat))
  | .jbool b => some (if b then 1 else 0)
  | .jstr s => pyIntOfString s
  | _ => none

/-- The `for k, v in indices.items(): ... int(v) ... except: continue`
loop. -/
def loadIndices (ifields : List (String × Json)) : List (String × Int) :=
  (jsonItems ifields).foldl (fun acc p =>
    match pyInt p.2 with
    | some v => acc ++ [(p.1, v)]
    | none => acc) []

def defaultPlayState : PlayState := ⟨[], none, 0⟩

/-- The body of `_load_play_state` after a successful `json.loads` : the
new `indices`/`meta` format, the legacy flat format, or (for a non-dict
document) the untouched defaults.  A truthy non-dict `meta` makes the
source raise `AttributeError` out of the method (`meta.get` is outside
the `try`), modelled by `.error`. -/
def loadFromPayload (payload : Json) : Except String PlayState :=
  match payload with
  | .jobj fields =>
    if jsonHasKey fields "indices" || jsonHasKey fields "meta" then
      let idxPairs :=
        match jsonGet fields "indices" with
        | some (.jobj ifields) => loadIndices ifields
        | _ => []
      let metaJ :=
        match jsonGet fields "meta" with
        | some v => if jsonTruthy v then v else Json.jobj []
        | none => Json.jobj []
      match metaJ with
      | .jobj mfields =>
        let lastCh :=
          match jsonGet mfields "last_channel" with
          | some (.jstr s) => if s ≠ "" then some s else none
          | _ => none
        let ltJ := (jsonGet mfields "last_time").getD Json.null
        let lastT :=
          match (if jsonTruthy ltJ then pyFloatTime ltJ else some 0) with
          | some t => t
          | none => 0
        .ok { indices := idxPairs, lastChannel := lastCh, lastTime := lastT }
      | _ => .error "AttributeError"
    else
      .ok { indices := loadIndices fields, lastChannel := none, lastTime := 0 }
  | _ => .ok defaultPlayState

/-- `_load_play_state` : `raw = _read_text(path)` (`""` when the file is
missing or unreadable); a falsy raw text or a failing `json.loads` keeps
the empty defaults. -/
def loadPlayState (raw : String) : Except String PlayState :=
  if raw = "" then .ok defaultPlayState
  else
    match parseJson raw with
    | none => .ok defaultPlayState
    | some payload => loadFromPayload payload

/-! ## END OF DEFINITIONS (insertion marker) -/

/-! ## General lemmas about the stable sort -/

theorem mem_insertStableBy {α : Type} {le : α → α → Bool} {x z : α} :
    ∀ {l : List α}, z ∈ insertStableBy le x l → z = x ∨ z ∈ l := by
  intro l h
  induction l with
  | nil => simpa [insertStableBy] using h
  | cons y ys ih =>
    unfold insertStableBy at h
    split at h
    · rcases List.mem_cons.mp h with rfl | h2
      · exact Or.inr (List.mem_cons_self _ _)
      · rcases ih h2 with rfl | h3
        · exact Or.inl rfl
        · exact Or.inr (List.mem_cons_of_mem _ h3)
    · rcases List.mem_cons.mp h with rfl | h2
      · exact Or.inl rfl
      · exact Or.inr h2

theorem pairwise_insertStableBy {α : Type} {le : α → α → Bool}
    (total : ∀ a b, le a b || le b a)
    (trans : ∀ a b c, le a b = true → le b c = true → le a c = true)
    (x : α) :
    ∀ {l : List α}, l.Pairwise (fun a b => le a b = true) →
      (insertStableBy le x l).Pairwise (fun a b => le a b = true) := by
  intro l h
  induction l with
  | nil => simp [insertStableBy]
  | cons y ys ih =>
    rcases List.pairwise_cons.mp h with ⟨hy, hys⟩
    unfold insertStableBy
    by_cases hle : le y x
    · simp only [hle, if_true]
      refine List.pairwise_cons.mpr ⟨?_, ih hys⟩
      intro z hz
      rcases mem_insertStableBy hz with rfl | hz2
      · exact hle
      · exact hy z hz2
    · have hxy : le x y := by
        have h2 := total y x
        have h3 := total x y
        simp [hle] at h2
        exact h2
      simp only [hle, if_false, Bool.false_eq_true]
      refine List.pairwise_cons.mpr ⟨?_, h⟩
      intro z hz
      rcases List.mem_cons.mp hz with rfl | hz2
      · exact hxy
      · exact trans x y z hxy (hy z hz2)

theorem pairwise_foldl_insertStableBy {α : Type} {le : α → α → Bool}
    (total : ∀ a b, le a b || le b a)
    (trans : ∀ a b c, le a b = true → le b c = true → le a c = true) :
    ∀ (l acc : List α), acc.Pairwise (fun a b => le a b = true) →
      (l.foldl (fun acc2 x => insertStableBy le x acc2) acc).Pairwise
        (fun a b => le a b = true)
  | [], _, h => h
  | x :: xs, _, h =>
    pairwise_foldl_insertStableBy total trans xs _
      (pairwise_insertStableBy total trans x h)

theorem pairwise_pySortBy {α : Type} {le : α → α → Bool}
    (total : ∀ a b, le a b || le b a)
    (trans : ∀ a b c, le a b = true → le b c = true → le a c = true)
    (l : List α) :
    (pySortBy le l).Pairwise (fun a b => le a b = true) :=
  pairwise_foldl_insertStableBy total trans l [] (by simp)

/-! ## Soundness of the alias scan -/

theorem identifyScan_eq_some {l : List (String × String)} {cleaned cid : String}
    (h : identifyScan l cleaned = some cid) :
    ∃ a, (a, cid) ∈ l ∧ cleaned.data.take a.data.length = a.data ∧
      (cleaned.data.drop a.data.length = [] ∨
       (cleaned.data.drop a.data.length).take 1 = [' ']) := by
  induction l with
  | nil => simp [identifyScan] at h
  | cons p rest ih =>
    rw [show p = (p.1, p.2) from rfl] at h
    unfold identifyScan at h
    split at h
    · dsimp only at h
      split at h
      · rename_i hpre hbound
        injection h with h
        subst h
        refine ⟨p.1, by simp, hpre, ?_⟩
        simpa using hbound
      · rcases ih h with ⟨a, hmem, h1, h2⟩
        exact ⟨a, List.mem_cons_of_mem _ hmem, h1, h2⟩
    · rcases ih h with ⟨a, hmem, h1, h2⟩
      exact ⟨a, List.mem_cons_of_mem _ hmem, h1, h2⟩

/-! ## Claim theorems: C1, C6 -/

/-- C1: the normalization function maps each of "RTL Kettő", "RTL II",
"RTL II HD" and "RTL 2" to the same key as "RTL 2" — all four inputs
yield one identical normalization key. -/
theorem C1_normalize_rtl2_aliases_converge :
    normalizeEpgName "RTL Kettő" = normalizeEpgName "RTL 2" ∧
    normalizeEpgName "RTL II" = normalizeEpgName "RTL 2" ∧
    normalizeEpgName "RTL II HD" = normalizeEpgName "RTL 2" ∧
    normalizeEpgName "RTL 2" = normalizeEpgName "RTL 2" := by
  exact ⟨by decide, by decide, by decide, rfl⟩

set_option maxRecDepth 1000000 in
set_option maxHeartbeats 4000000 in
/-- C6: the alias resolver scans surface forms in order of decreasing
length (the lookup list is sorted longest-first), accepts an alias only
when it is a prefix of the cleaned name immediately followed by
end-of-string or a space, and the cleaned name "RTL 20" is not matched
by the alias "RTL 2" (it resolves to "RTL" via the shorter alias). -/
theorem C6_identify_channel_id_prefix_boundary :
    sortedAliases.Pairwise (fun a b => b.1.length ≤ a.1.length)
    ∧ (∀ raw cid, identifyChannelId raw = some cid →
        ∃ a, (a, cid) ∈ sortedAliases ∧
          (cleanRawName raw).data.take a.data.length = a.data ∧
          ((cleanRawName raw).data.drop a.data.length = [] ∨
           ((cleanRawName raw).data.drop a.data.length).take 1 = [' ']))
    ∧ identifyChannelId "RTL 20" = some "RTL"
    ∧ identifyChannelId "RTL 20" ≠ some "RTL 2" := by
  refine ⟨?_, ?_, ?_, ?_⟩
  · have h := @pairwise_pySortBy (String × String)
      (fun a b => decide (b.1.length ≤ a.1.length))
      (fun a b => by
        rcases Nat.le_total b.1.length a.1.length with h1 | h1 <;> simp [h1])
      (fun a b c h1 h2 => by
        simp only [decide_eq_true_eq] at h1 h2 ⊢
        omega)
    exact (h _).imp (fun hab => by simpa using hab)
  · intro raw cid h
    unfold identifyChannelId at h
    split at h
    · exact absurd h (by simp)
    · dsimp only at h
      split at h
      · exact absurd h (by simp)
      · exact identifyScan_eq_some h
  · decide
  · decide

/-! ## Helper lemmas about the selection engine -/

theorem length_insertStableBy {α : Type} (le : α → α → Bool) (x : α) :
    ∀ l : List α, (insertStableBy le x l).length = l.length + 1 := by
  intro l
  induction l with
  | nil => simp [insertStableBy]
  | cons y ys ih =>
    unfold insertStableBy
    split <;> simp [ih]

theorem length_foldl_insertStableBy {α : Type} (le : α → α → Bool) :
    ∀ (l acc : List α),
      (l.foldl (fun acc2 x => insertStableBy le x acc2) acc).length
        = acc.length + l.length
  | [], acc => by simp
  | x :: xs, acc => by
    rw [List.foldl_cons, length_foldl_insertStableBy le xs _,
      length_insertStableBy]
    simp only [List.length_cons]
    omega

theorem length_pySortBy {α : Type} (le : α → α → Bool) (l : List α) :
    (pySortBy le l).length = l.length := by
  unfold pySortBy
  rw [length_foldl_insertStableBy]
  simp

theorem length_rankCandidates (q : Bool) (v : List EngineVariant) :
    (rankCandidates q v).length = v.length := by
  unfold rankCandidates
  split
  · exact length_pySortBy _ v
  · rfl

theorem rankCandidates_ne_nil {q : Bool} {v : List EngineVariant}
    (hv : v ≠ []) : rankCandidates q v ≠ [] := by
  intro h
  apply hv
  have := length_rankCandidates q v
  rw [h] at this
  simpa using (List.length_eq_zero.mp this.symm)

theorem readIndex_setIndex_self (st : PlayState) (cid : String) (v : Int) :
    readIndex (setIndex st cid v) cid = v := by
  simp [readIndex, lookupIndex, setIndex, List.find?]

theorem prevIndexOf_bounds (st : PlayState) (cid : String) {n : Nat}
    (hn : 1 ≤ n) :
    0 ≤ prevIndexOf st cid n ∧ prevIndexOf st cid n < (n : Int) := by
  unfold prevIndexOf
  dsimp only
  split <;> rename_i h
  · constructor <;> omega
  · simp only [Bool.or_eq_true, decide_eq_true_eq, not_or] at h
    push_neg at h
    omega

/-- Characterization of `get_play_url` on a present channel with a
non-empty variant list: it returns the candidate at the computed index
and persists that index together with the meta pair. -/
theorem getPlayUrl_spec (cfg : EngineConfig) (catalog : List EngineChannel)
    (st : PlayState) (cid : String) (now : Int) (ch : EngineChannel)
    (hch : getChannelById catalog cid = some ch)
    (hv : ch.variants ≠ []) :
    ∃ chosen,
      (rankCandidates cfg.preferQuality ch.variants).get?
        (if decide (st.lastChannel = some cid) && decide (now - st.lastTime < 20) then
          (if prevIndexOf st cid (rankCandidates cfg.preferQuality ch.variants).length + 1
              ≥ ((rankCandidates cfg.preferQuality ch.variants).length : Int) then 0
           else prevIndexOf st cid (rankCandidates cfg.preferQuality ch.variants).length + 1)
         else prevIndexOf st cid (rankCandidates cfg.preferQuality ch.variants).length).toNat
        = some chosen ∧
      getPlayUrl cfg catalog st cid now =
        Except.ok
          ((if chosen.url = "" then none else some (resolveVariantUrl cfg chosen.url)),
           { setIndex st cid
               (if decide (st.lastChannel = some cid) && decide (now - st.lastTime < 20) then
                 (if prevIndexOf st cid (rankCandidates cfg.preferQuality ch.variants).length + 1
                     ≥ ((rankCandidates cfg.preferQuality ch.variants).length : Int) then 0
                  else prevIndexOf st cid (rankCandidates cfg.preferQuality ch.variants).length + 1)
                else prevIndexOf st cid (rankCandidates cfg.preferQuality ch.variants).length) with
             lastChannel := some cid, lastTime := now }) := by
  have hcand : rankCandidates cfg.preferQuality ch.variants ≠ [] :=
    rankCandidates_ne_nil hv
  have hn : 1 ≤ (rankCandidates cfg.preferQuality ch.variants).length :=
    List.length_pos.mpr hcand
  obtain ⟨hge, hlt⟩ := prevIndexOf_bounds st cid hn
  set cands := rankCandidates cfg.preferQuality ch.variants with hcands
  set prev := prevIndexOf st cid cands.length with hprev
  set index := (if decide (st.lastChannel = some cid) && decide (now - st.lastTime < 20) then
      (if prev + 1 ≥ (cands.length : Int) then 0 else prev + 1) else prev) with hindex
  have hidx : 0 ≤ index ∧ index < (cands.length : Int) := by
    rw [hindex]
    split
    · split <;> omega
    · exact ⟨hge, hlt⟩
  have hlt2 : index.toNat < cands.length := by omega
  refine ⟨cands.get ⟨index.toNat, hlt2⟩, List.get?_eq_get hlt2, ?_⟩
  unfold getPlayUrl
  rw [hch]
  dsimp only
  rw [if_neg hv, if_neg hcand]
  rw [List.get?_eq_get hlt2]
  dsimp only
  split <;> rfl

theorem readIndex_update (st : PlayState) (cid : String) (v : Int)
    (lc : Option String) (lt : Int) :
    readIndex { setIndex st cid v with lastChannel := lc, lastTime := lt } cid
      = v := by
  simp [readIndex, lookupIndex, setIndex, List.find?]

theorem prevIndexOf_update (st : PlayState) (cid : String) (v : Int)
    (lc : Option String) (lt : Int) {n : Nat} (h0 : 0 ≤ v) (h1 : v < (n : Int)) :
    prevIndexOf { setIndex st cid v with lastChannel := lc, lastTime := lt }
      cid n = v := by
  unfold prevIndexOf
  dsimp only
  simp only [lookupIndex, setIndex, List.find?, decide_True, Option.map_some',
    Option.getD_some]
  rw [if_neg]
  simp only [Bool.or_eq_true, decide_eq_true_eq, not_or]
  omega

/-- `get_play_url` under the quick-retry condition: the persisted index
advances to the next ranked candidate, wrapping at the end: it becomes
`(prev + 1) mod len(candidates)`. -/
theorem getPlayUrl_quick (cfg : EngineConfig) (catalog : List EngineChannel)
    (st : PlayState) (cid : String) (now : Int) (ch : EngineChannel)
    (hch : getChannelById catalog cid = some ch)
    (hv : ch.variants ≠ [])
    (hlast : st.lastChannel = some cid)
    (htime : now - st.lastTime < 20) :
    ∃ r st2, getPlayUrl cfg catalog st cid now = Except.ok (r, st2) ∧
      readIndex st2 cid =
        (prevIndexOf st cid (rankCandidates cfg.preferQuality ch.variants).length + 1) %
          ((rankCandidates cfg.preferQuality ch.variants).length : Int) := by
  obtain ⟨chosen, hget, heq⟩ := getPlayUrl_spec cfg catalog st cid now ch hch hv
  have hn : 1 ≤ (rankCandidates cfg.preferQuality ch.variants).length :=
    List.length_pos.mpr (rankCandidates_ne_nil hv)
  obtain ⟨hge, hlt⟩ := prevIndexOf_bounds st cid hn
  have hcond : (decide (st.lastChannel = some cid) &&
      decide (now - st.lastTime < 20)) = true := by
    simp [hlast, htime]
  rw [if_pos hcond] at heq
  by_cases hwrap : prevIndexOf st cid (rankCandidates cfg.preferQuality ch.variants).length + 1
      ≥ ((rankCandidates cfg.preferQuality ch.variants).length : Int)
  · rw [if_pos hwrap] at heq
    refine ⟨_, _, heq, ?_⟩
    rw [readIndex_update]
    have heqlen : prevIndexOf st cid (rankCandidates cfg.preferQuality ch.variants).length + 1
        = ((rankCandidates cfg.preferQuality ch.variants).length : Int) := by omega
    rw [heqlen, Int.emod_self]
  · rw [if_neg hwrap] at heq
    refine ⟨_, _, heq, ?_⟩
    rw [readIndex_update]
    exact (Int.emod_eq_of_lt (by omega) (by omega)).symm

/-- `get_play_url` outside the quick-retry window (or for a different
last channel): the persisted index stays at the clamped previous value. -/
theorem getPlayUrl_slow (cfg : EngineConfig) (catalog : List EngineChannel)
    (st : PlayState) (cid : String) (now : Int) (ch : EngineChannel)
    (hch : getChannelById catalog cid = some ch)
    (hv : ch.variants ≠ [])
    (htime : 20 ≤ now - st.lastTime) :
    ∃ r st2, getPlayUrl cfg catalog st cid now = Except.ok (r, st2) ∧
      readIndex st2 cid =
        prevIndexOf st cid (rankCandidates cfg.preferQuality ch.variants).length := by
  obtain ⟨chosen, hget, heq⟩ := getPlayUrl_spec cfg catalog st cid now ch hch hv
  have hcond : (decide (st.lastChannel = some cid) &&
      decide (now - st.lastTime < 20)) = false := by
    have : ¬ (now - st.lastTime < 20) := by linarith
    simp [this]
  rw [hcond] at heq
  simp only [Bool.false_eq_true, if_false] at heq
  exact ⟨_, _, heq, readIndex_update _ _ _ _ _⟩

theorem clampManualIndex_bounds (arg : Option Int) {n : Nat} (hn : 1 ≤ n) :
    0 ≤ clampManualIndex arg n ∧ clampManualIndex arg n < (n : Int) := by
  unfold clampManualIndex
  dsimp only
  constructor
  · split <;> rename_i h1
    · omega
    · split <;> omega
  · split <;> rename_i h1
    · omega
    · split <;> omega

/-- Characterization of `get_manual_play_url` on a present channel with a
non-empty variant list: it indexes the unranked variant list at the
clamped raw index and persists exactly that clamped index. -/
theorem getManualPlayUrl_spec (cfg : EngineConfig) (catalog : List EngineChannel)
    (st : PlayState) (cid : String) (arg : Option Int) (now : Int)
    (ch : EngineChannel)
    (hch : getChannelById catalog cid = some ch)
    (hv : ch.variants ≠ []) :
    ∃ chosen,
      ch.variants.get? (clampManualIndex arg ch.variants.length).toNat
        = some chosen ∧
      getManualPlayUrl cfg catalog st cid arg now = Except.ok
        ((if chosen.url = "" then none
          else some (resolveVariantUrl cfg chosen.url)),
         { setIndex st cid (clampManualIndex arg ch.variants.length) with
             lastChannel := some cid, lastTime := now }) := by
  have hn : 1 ≤ ch.variants.length := List.length_pos.mpr hv
  obtain ⟨h0, h1⟩ := clampManualIndex_bounds arg hn
  have hlt2 : (clampManualIndex arg ch.variants.length).toNat
      < ch.variants.length := by omega
  refine ⟨ch.variants.get ⟨_, hlt2⟩, List.get?_eq_get hlt2, ?_⟩
  unfold getManualPlayUrl
  rw [hch]
  dsimp only
  rw [if_neg hv]
  rw [List.get?_eq_get hlt2]
  dsimp only
  split <;> rfl

/-- Characterization of `set_preferred_variant` : the persisted index is
the position of the manually chosen variant's URL inside the ranked
candidate list. -/
theorem setPreferredVariant_spec (cfg : EngineConfig)
    (catalog : List EngineChannel) (st : PlayState) (cid : String)
    (arg : Option Int) (now : Int) (ch : EngineChannel)
    (hch : getChannelById catalog cid = some ch)
    (hv : ch.variants ≠ []) :
    ∃ chosenRaw,
      ch.variants.get? (clampManualIndex arg ch.variants.length).toNat
        = some chosenRaw ∧
      setPreferredVariant cfg catalog st cid arg now = Except.ok
        { setIndex st cid
            (findTargetIndex (rankCandidates cfg.preferQuality ch.variants)
              chosenRaw.url) with
          lastChannel := some cid, lastTime := now } := by
  have hn : 1 ≤ ch.variants.length := List.length_pos.mpr hv
  obtain ⟨h0, h1⟩ := clampManualIndex_bounds arg hn
  have hlt2 : (clampManualIndex arg ch.variants.length).toNat
      < ch.variants.length := by omega
  refine ⟨ch.variants.get ⟨_, hlt2⟩, List.get?_eq_get hlt2, ?_⟩
  unfold setPreferredVariant
  rw [hch]
  dsimp only
  rw [if_neg hv, if_neg (rankCandidates_ne_nil hv)]
  rw [List.get?_eq_get hlt2]

/-! ## Claim theorems: C2, C7, C10 -/

/-- C2: for a channel present in the catalog, when the immediately
preceding call was for the same channel id (persisted `last_channel`)
and the gap is strictly less than 20 seconds, the persisted selected
index becomes `(prevIndex + 1) mod len(candidates)`; with a gap of 20
seconds or more it stays `prevIndex` unchanged. -/
theorem C2_quick_retry_failover (cfg : EngineConfig)
    (catalog : List EngineChannel) (st : PlayState) (cid : String)
    (now : Int) (ch : EngineChannel)
    (hch : getChannelById catalog cid = some ch)
    (hv : ch.variants ≠ [])
    (hlast : st.lastChannel = some cid) :
    (now - st.lastTime < 20 →
      ∃ r st2, getPlayUrl cfg catalog st cid now = Except.ok (r, st2) ∧
        readIndex st2 cid =
          (prevIndexOf st cid (rankCandidates cfg.preferQuality ch.variants).length + 1) %
            ((rankCandidates cfg.preferQuality ch.variants).length : Int)) ∧
    (20 ≤ now - st.lastTime →
      ∃ r st2, getPlayUrl cfg catalog st cid now = Except.ok (r, st2) ∧
        readIndex st2 cid =
          prevIndexOf st cid (rankCandidates cfg.preferQuality ch.variants).length) :=
  ⟨fun htime => getPlayUrl_quick cfg catalog st cid now ch hch hv hlast htime,
   fun htime => getPlayUrl_slow cfg catalog st cid now ch hch hv htime⟩

/-- Witness for C2 at a concrete channel with two variants: a second
call 5 seconds after the first advances the index, a call 25 seconds
after keeps it. -/
theorem C2_quick_retry_failover_witness :
    (((105 : Int) - (100 : Int) < 20 →
      ∃ r st2,
        getPlayUrl ⟨true, false, fun u => u⟩
          [⟨"c", "http://base", [⟨"http://a/x"⟩, ⟨"http://b/x"⟩]⟩]
          ⟨[("c", 0)], some "c", 100⟩ "c" 105 = Except.ok (r, st2) ∧
        readIndex st2 "c" =
          (prevIndexOf ⟨[("c", 0)], some "c", 100⟩ "c"
              (rankCandidates true [⟨"http://a/x"⟩, ⟨"http://b/x"⟩]).length + 1) %
            ((rankCandidates true [⟨"http://a/x"⟩, ⟨"http://b/x"⟩]).length : Int)) ∧
     ((20 : Int) ≤ (105 : Int) - (100 : Int) →
      ∃ r st2,
        getPlayUrl ⟨true, false, fun u => u⟩
          [⟨"c", "http://base", [⟨"http://a/x"⟩, ⟨"http://b/x"⟩]⟩]
          ⟨[("c", 0)], some "c", 100⟩ "c" 105 = Except.ok (r, st2) ∧
        readIndex st2 "c" =
          prevIndexOf ⟨[("c", 0)], some "c", 100⟩ "c"
            (rankCandidates true [⟨"http://a/x"⟩, ⟨"http://b/x"⟩]).length)) ∧
    (((125 : Int) - (100 : Int) < 20 →
      ∃ r st2,
        getPlayUrl ⟨true, false, fun u => u⟩
          [⟨"c", "http://base", [⟨"http://a/x"⟩, ⟨"http://b/x"⟩]⟩]
          ⟨[("c", 0)], some "c", 100⟩ "c" 125 = Except.ok (r, st2) ∧
        readIndex st2 "c" =
          (prevIndexOf ⟨[("c", 0)], some "c", 100⟩ "c"
              (rankCandidates true [⟨"http://a/x"⟩, ⟨"http://b/x"⟩]).length + 1) %
            ((rankCandidates true [⟨"http://a/x"⟩, ⟨"http://b/x"⟩]).length : Int)) ∧
     ((20 : Int) ≤ (125 : Int) - (100 : Int) →
      ∃ r st2,
        getPlayUrl ⟨true, false, fun u => u⟩
          [⟨"c", "http://base", [⟨"http://a/x"⟩, ⟨"http://b/x"⟩]⟩]
          ⟨[("c", 0)], some "c", 100⟩ "c" 125 = Except.ok (r, st2) ∧
        readIndex st2 "c" =
          prevIndexOf ⟨[("c", 0)], some "c", 100⟩ "c"
            (rankCandidates true [⟨"http://a/x"⟩, ⟨"http://b/x"⟩]).length)) :=
  ⟨C2_quick_retry_failover ⟨true, false, fun u => u⟩
      [⟨"c", "http://base", [⟨"http://a/x"⟩, ⟨"http://b/x"⟩]⟩]
      ⟨[("c", 0)], some "c", 100⟩ "c" 105
      ⟨"c", "http://base", [⟨"http://a/x"⟩, ⟨"http://b/x"⟩]⟩
      rfl (by decide) rfl,
   C2_quick_retry_failover ⟨true, false, fun u => u⟩
      [⟨"c", "http://base", [⟨"http://a/x"⟩, ⟨"http://b/x"⟩]⟩]
      ⟨[("c", 0)], some "c", 100⟩ "c" 125
      ⟨"c", "http://base", [⟨"http://a/x"⟩, ⟨"http://b/x"⟩]⟩
      rfl (by decide) rfl⟩

/-- C7 counterexample: a channel that is present in the catalog with an
empty variant list but a non-empty base `url` makes `get_play_url`
return that base URL — not "no URL" as the claim states. -/
theorem C7_counterexample :
    getChannelById [⟨"e", "http://x", []⟩] "e" = some ⟨"e", "http://x", []⟩ ∧
    (⟨"e", "http://x", []⟩ : EngineChannel).variants = [] ∧
    getPlayUrl ⟨true, false, fun u => u⟩ [⟨"e", "http://x", []⟩]
      ⟨[], none, 0⟩ "e" 0 = Except.ok (some "http://x", ⟨[], none, 0⟩) ∧
    some "http://x" ≠ (none : Option String) :=
  ⟨rfl, rfl, rfl, by simp⟩

/-- C7 amended: a channel absent from the catalog yields no URL and no
error; a channel present with an empty variant list falls back to its
base `url` field — the resolved base URL when that is non-empty, and no
URL only when the base url is empty; neither case is an error. -/
theorem C7_amended_missing_channel_no_url (cfg : EngineConfig)
    (catalog : List EngineChannel) (st : PlayState) (cid : String) (now : Int) :
    (getChannelById catalog cid = none →
      getPlayUrl cfg catalog st cid now = Except.ok (none, st)) ∧
    (∀ ch, getChannelById catalog cid = some ch → ch.variants = [] →
      getPlayUrl cfg catalog st cid now =
        Except.ok
          ((if ch.url ≠ "" then some (resolveVariantUrl cfg ch.url) else none),
           st)) := by
  constructor
  · intro h
    unfold getPlayUrl
    rw [h]
  · intro ch h hv
    unfold getPlayUrl
    rw [h]
    dsimp only
    rw [if_pos hv]

/-- C10: on a channel with a non-empty variant list, `get_manual_play_url`
clamps any raw index (unparsable `none` / negative / overshooting) into
`[0, len(variants))` and indexes the variant list only at the clamped
value, so the call returns `ok` (never an index error) and persists the
clamped index. -/
theorem C10_manual_index_clamped (cfg : EngineConfig)
    (catalog : List EngineChannel) (st : PlayState) (cid : String)
    (arg : Option Int) (now : Int) (ch : EngineChannel)
    (hch : getChannelById catalog cid = some ch)
    (hv : ch.variants ≠ []) :
    0 ≤ clampManualIndex arg ch.variants.length ∧
    clampManualIndex arg ch.variants.length < (ch.variants.length : Int) ∧
    ∃ chosen st2,
      ch.variants.get? (clampManualIndex arg ch.variants.length).toNat
        = some chosen ∧
      getManualPlayUrl cfg catalog st cid arg now = Except.ok
        ((if chosen.url = "" then none
          else some (resolveVariantUrl cfg chosen.url)), st2) ∧
      readIndex st2 cid = clampManualIndex arg ch.variants.length := by
  have hn : 1 ≤ ch.variants.length := List.length_pos.mpr hv
  obtain ⟨h0, h1⟩ := clampManualIndex_bounds arg hn
  obtain ⟨chosen, hget, heq⟩ :=
    getManualPlayUrl_spec cfg catalog st cid arg now ch hch hv
  exact ⟨h0, h1, chosen, _, hget, heq, readIndex_update _ _ _ _ _⟩

/-- Witness for C10 at out-of-range raw indices: an unparsable argument,
a negative one and an overshooting one all clamp into range. -/
theorem C10_manual_index_clamped_witness :
    0 ≤ clampManualIndex (some (-7)) 2 ∧
    clampManualIndex (some (-7)) 2 < (2 : Int) ∧
    ∃ chosen st2,
      [(⟨"http://a/x"⟩ : EngineVariant), ⟨"http://b/x"⟩].get?
        (clampManualIndex (some (-7)) 2).toNat = some chosen ∧
      getManualPlayUrl ⟨true, false, fun u => u⟩
        [⟨"c", "http://base", [⟨"http://a/x"⟩, ⟨"http://b/x"⟩]⟩]
        ⟨[], none, 0⟩ "c" (some (-7)) 5 = Except.ok
        ((if chosen.url = "" then none
          else some (resolveVariantUrl ⟨true, false, fun u => u⟩ chosen.url)),
         st2) ∧
      readIndex st2 "c" = clampManualIndex (some (-7)) 2 :=
  C10_manual_index_clamped ⟨true, false, fun u => u⟩
    [⟨"c", "http://base", [⟨"http://a/x"⟩, ⟨"http://b/x"⟩]⟩]
    ⟨[], none, 0⟩ "c" (some (-7)) 5
    ⟨"c", "http://base", [⟨"http://a/x"⟩, ⟨"http://b/x"⟩]⟩ rfl (by decide)

/-! ## Claim theorems: C3 -/

/-- C3 counterexample.  With two equal-quality variants `a`/`b`,
`get_manual_play_url` with raw index 1 returns variant `b` and persists
the raw index 1; the immediately following automatic call (same channel,
1 second later) returns variant `a` — the variant at index 0 — because
the quick-retry rule advances past the manual choice.  And with a
ranked-reordered channel (`q/1080` outranks `p`), `get_manual_play_url`
persists the raw index 1 although the chosen URL's rank position is 0
(the rank mapping lives in `set_preferred_variant`, not here). -/
theorem C3_counterexample :
    getManualPlayUrl ⟨true, false, fun u => u⟩
      [⟨"c", "http://base", [⟨"http://a/x"⟩, ⟨"http://b/x"⟩]⟩]
      ⟨[], none, 0⟩ "c" (some 1) 1000
      = Except.ok (some "http://b/x", ⟨[("c", 1)], some "c", 1000⟩) ∧
    getPlayUrl ⟨true, false, fun u => u⟩
      [⟨"c", "http://base", [⟨"http://a/x"⟩, ⟨"http://b/x"⟩]⟩]
      ⟨[("c", 1)], some "c", 1000⟩ "c" 1001
      = Except.ok (some "http://a/x", ⟨[("c", 0)], some "c", 1001⟩) ∧
    (rankCandidates true [⟨"http://a/x"⟩, ⟨"http://b/x"⟩]).get? 0
      = some ⟨"http://a/x"⟩ ∧
    some "http://a/x" ≠ some "http://b/x" ∧
    getManualPlayUrl ⟨true, false, fun u => u⟩
      [⟨"q", "", [⟨"http://p/x"⟩, ⟨"http://q/1080"⟩]⟩]
      ⟨[], none, 0⟩ "q" (some 1) 1000
      = Except.ok (some "http://q/1080", ⟨[("q", 1)], some "q", 1000⟩) ∧
    findTargetIndex (rankCandidates true [⟨"http://p/x"⟩, ⟨"http://q/1080"⟩])
      "http://q/1080" = 0 ∧
    (0 : Int) ≠ 1 :=
  ⟨rfl, rfl, rfl, by simp, rfl, rfl, by norm_num⟩

/-- C3 amended: `get_manual_play_url` clamps the raw index into the
unranked variant list, returns that variant's URL and persists the
clamped raw index itself (it is `set_preferred_variant` that translates
the chosen URL to its rank position and persists that); and because the
manual call also updates `last_channel`/`last_time`, an automatic call
for the same channel within the 20-second window advances to
`(storedIndex + 1) mod len(candidates)` instead of repeating the manual
choice. -/
theorem C3_manual_override_amended (cfg : EngineConfig)
    (catalog : List EngineChannel) (st : PlayState) (cid : String)
    (arg : Option Int) (now now2 : Int) (ch : EngineChannel)
    (hch : getChannelById catalog cid = some ch)
    (hv : ch.variants ≠ [])
    (hgap : now2 - now < 20) :
    ∃ chosen st2,
      ch.variants.get? (clampManualIndex arg ch.variants.length).toNat
        = some chosen ∧
      getManualPlayUrl cfg catalog st cid arg now = Except.ok
        ((if chosen.url = "" then none
          else some (resolveVariantUrl cfg chosen.url)), st2) ∧
      readIndex st2 cid = clampManualIndex arg ch.variants.length ∧
      st2.lastChannel = some cid ∧ st2.lastTime = now ∧
      (∃ r st3, getPlayUrl cfg catalog st2 cid now2 = Except.ok (r, st3) ∧
        readIndex st3 cid =
          (clampManualIndex arg ch.variants.length + 1) %
            ((rankCandidates cfg.preferQuality ch.variants).length : Int)) ∧
      (∃ st4, setPreferredVariant cfg catalog st cid arg now = Except.ok st4 ∧
        readIndex st4 cid =
          findTargetIndex (rankCandidates cfg.preferQuality ch.variants)
            chosen.url) := by
  have hn : 1 ≤ ch.variants.length := List.length_pos.mpr hv
  obtain ⟨h0, h1⟩ := clampManualIndex_bounds arg hn
  obtain ⟨chosen, hget, heq⟩ :=
    getManualPlayUrl_spec cfg catalog st cid arg now ch hch hv
  refine ⟨chosen, _, hget, heq, readIndex_update _ _ _ _ _, rfl, rfl, ?_, ?_⟩
  · have hlen : (rankCandidates cfg.preferQuality ch.variants).length
        = ch.variants.length := length_rankCandidates _ _
    obtain ⟨r, st3, hauto, hidx⟩ :=
      getPlayUrl_quick cfg catalog
        { setIndex st cid (clampManualIndex arg ch.variants.length) with
            lastChannel := some cid, lastTime := now }
        cid now2 ch hch hv rfl (by simpa using hgap)
    refine ⟨r, st3, hauto, ?_⟩
    rw [hidx, prevIndexOf_update st cid _ _ _ h0 (by rw [hlen]; exact h1)]
  · obtain ⟨chosenRaw, hget2, heq2⟩ :=
      setPreferredVariant_spec cfg catalog st cid arg now ch hch hv
    have hsame : chosenRaw = chosen := by
      rw [hget] at hget2
      exact (Option.some.inj hget2).symm
    subst hsame
    exact ⟨_, heq2, readIndex_update _ _ _ _ _⟩

/-- Witness for C3 amended at the concrete two-variant channel. -/
theorem C3_manual_override_amended_witness :
    ∃ chosen st2,
      [(⟨"http://a/x"⟩ : EngineVariant), ⟨"http://b/x"⟩].get?
        (clampManualIndex (some 1) 2).toNat = some chosen ∧
      getManualPlayUrl ⟨true, false, fun u => u⟩
        [⟨"c", "http://base", [⟨"http://a/x"⟩, ⟨"http://b/x"⟩]⟩]
        ⟨[], none, 0⟩ "c" (some 1) 1000 = Except.ok
        ((if chosen.url = "" then none
          else some (resolveVariantUrl ⟨true, false, fun u => u⟩ chosen.url)),
         st2) ∧
      readIndex st2 "c" = clampManualIndex (some 1) 2 ∧
      st2.lastChannel = some "c" ∧ st2.lastTime = 1000 ∧
      (∃ r st3, getPlayUrl ⟨true, false, fun u => u⟩
          [⟨"c", "http://base", [⟨"http://a/x"⟩, ⟨"http://b/x"⟩]⟩]
          st2 "c" 1001 = Except.ok (r, st3) ∧
        readIndex st3 "c" =
          (clampManualIndex (some 1) 2 + 1) %
            ((rankCandidates true [⟨"http://a/x"⟩, ⟨"http://b/x"⟩]).length : Int)) ∧
      (∃ st4, setPreferredVariant ⟨true, false, fun u => u⟩
          [⟨"c", "http://base", [⟨"http://a/x"⟩, ⟨"http://b/x"⟩]⟩]
          ⟨[], none, 0⟩ "c" (some 1) 1000 = Except.ok st4 ∧
        readIndex st4 "c" =
          findTargetIndex (rankCandidates true [⟨"http://a/x"⟩, ⟨"http://b/x"⟩])
            chosen.url) :=
  C3_manual_override_amended ⟨true, false, fun u => u⟩
    [⟨"c", "http://base", [⟨"http://a/x"⟩, ⟨"http://b/x"⟩]⟩]
    ⟨[], none, 0⟩ "c" (some 1) 1000 1001
    ⟨"c", "http://base", [⟨"http://a/x"⟩, ⟨"http://b/x"⟩]⟩
    rfl (by decide) (by norm_num)

/-! ## Claim theorems: C4 -/

theorem qualityScore_onlyMarker {m : ResMarker} {v : EngineVariant}
    (h : onlyMarker m v) : qualityScore v = -(resMarkerScore m) := by
  obtain ⟨c1, c2, c3, c4, c5, c6, c7⟩ := h
  unfold qualityScore
  cases m <;> simp_all [resMarkerScore]

/-- C4 counterexample: the URLs `http://s/fhd/x` and `http://s/2160/x`
each carry one resolution marker, 2160 is strictly higher than FHD in
the claimed order 480 < 720/HD < 1080/FHD < 2160/4K/UHD, yet the ranked
candidate list puts the FHD variant strictly earlier (the `fhd` token
also matches the `hd` test, scoring 50 against 40). -/
theorem C4_counterexample :
    onlyMarker ResMarker.mFHD ⟨"http://s/fhd/x"⟩ ∧
    onlyMarker ResMarker.m2160 ⟨"http://s/2160/x"⟩ ∧
    resMarkerTier ResMarker.mFHD < resMarkerTier ResMarker.m2160 ∧
    rankCandidates true [⟨"http://s/2160/x"⟩, ⟨"http://s/fhd/x"⟩]
      = [⟨"http://s/fhd/x"⟩, ⟨"http://s/2160/x"⟩] ∧
    rankCandidates true [⟨"http://s/fhd/x"⟩, ⟨"http://s/2160/x"⟩]
      = [⟨"http://s/fhd/x"⟩, ⟨"http://s/2160/x"⟩] := by
  refine ⟨by decide, by decide, by decide, rfl, rfl⟩

/-- C4 amended: the quality ranking is monotone in the marker score
5 (480) < 20 (720/HD) < 30 (1080) < 40 (2160/4K) < 50 (FHD) < 60 (UHD):
of two single-marker URLs the one with the strictly greater score ranks
strictly earlier whatever their first-seen order, hence the monotone
order is 480 < 720/HD < 1080 < 2160/4K < FHD < UHD — FHD and UHD also
collect the `hd` bonus and overtake 2160/4K; variants with equal scores
keep their first-seen relative order. -/
theorem C4_ranking_monotone_amended (m1 m2 : ResMarker)
    (v1 v2 : EngineVariant)
    (h1 : onlyMarker m1 v1) (h2 : onlyMarker m2 v2) :
    (resMarkerScore m2 < resMarkerScore m1 →
      rankCandidates true [v1, v2] = [v1, v2] ∧
      rankCandidates true [v2, v1] = [v1, v2]) ∧
    (resMarkerScore m1 = resMarkerScore m2 →
      rankCandidates true [v1, v2] = [v1, v2]) := by
  have q1 := qualityScore_onlyMarker h1
  have q2 := qualityScore_onlyMarker h2
  constructor
  · intro hs
    have hle12 : decide (qualityScore v1 ≤ qualityScore v2) = true := by
      rw [decide_eq_true_eq, q1, q2]
      omega
    have hle21 : decide (qualityScore v2 ≤ qualityScore v1) = false := by
      rw [decide_eq_false_iff_not, q1, q2]
      omega
    constructor
    · simp [rankCandidates, pySortBy, insertStableBy, hle12]
    · simp [rankCandidates, pySortBy, insertStableBy, hle21]
  · intro hs
    have hle12 : decide (qualityScore v1 ≤ qualityScore v2) = true := by
      rw [decide_eq_true_eq, q1, q2]
      omega
    simp [rankCandidates, pySortBy, insertStableBy, hle12]

/-- Witness for C4 amended: a UHD-marked URL (score 60) outranks a
480-marked one (score 5), in both presentation orders; and two variants
with the same marker tier 720/HD (equal scores) keep first-seen order. -/
theorem C4_ranking_monotone_amended_witness :
    ((resMarkerScore ResMarker.m480 < resMarkerScore ResMarker.mUHD →
      rankCandidates true [⟨"http://s/uhd/x"⟩, ⟨"http://s/480/x"⟩]
        = [⟨"http://s/uhd/x"⟩, ⟨"http://s/480/x"⟩] ∧
      rankCandidates true [⟨"http://s/480/x"⟩, ⟨"http://s/uhd/x"⟩]
        = [⟨"http://s/uhd/x"⟩, ⟨"http://s/480/x"⟩]) ∧
    (resMarkerScore ResMarker.mUHD = resMarkerScore ResMarker.m480 →
      rankCandidates true [⟨"http://s/uhd/x"⟩, ⟨"http://s/480/x"⟩]
        = [⟨"http://s/uhd/x"⟩, ⟨"http://s/480/x"⟩])) ∧
    ((resMarkerScore ResMarker.mHD < resMarkerScore ResMarker.m720 →
      rankCandidates true [⟨"http://s/720/x"⟩, ⟨"http://s/a-hd-b/x"⟩]
        = [⟨"http://s/720/x"⟩, ⟨"http://s/a-hd-b/x"⟩] ∧
      rankCandidates true [⟨"http://s/a-hd-b/x"⟩, ⟨"http://s/720/x"⟩]
        = [⟨"http://s/720/x"⟩, ⟨"http://s/a-hd-b/x"⟩]) ∧
    (resMarkerScore ResMarker.m720 = resMarkerScore ResMarker.mHD →
      rankCandidates true [⟨"http://s/720/x"⟩, ⟨"http://s/a-hd-b/x"⟩]
        = [⟨"http://s/720/x"⟩, ⟨"http://s/a-hd-b/x"⟩])) :=
  ⟨C4_ranking_monotone_amended ResMarker.mUHD ResMarker.m480
      ⟨"http://s/uhd/x"⟩ ⟨"http://s/480/x"⟩ (by decide) (by decide),
   C4_ranking_monotone_amended ResMarker.m720 ResMarker.mHD
      ⟨"http://s/720/x"⟩ ⟨"http://s/a-hd-b/x"⟩ (by decide) (by decide)⟩

/-! ## Claim theorems: C5, C8 -/

/-- C5 counterexample: aggregating the three entries yields three
canonical channels, not one — `_normalize_name` does no numeral-word
folding, so "RTL Kettő", "RTL II HD" and "RTL 2" get the distinct group
keys `rtlketto`, `rtlii`, `rtl2`; and the kept display name is the
accent-folded, HD-stripped clean name "RTL Ketto", not the raw
first-seen spelling "RTL Kettő". -/
theorem C5_counterexample :
    (aggregateChannels
      [{ name := "RTL Kettő", url := "http://a" },
       { name := "RTL II HD", url := "http://b" },
       { name := "RTL 2", url := "http://c" }]).length = 3 ∧
    (aggregateChannels
      [{ name := "RTL Kettő", url := "http://a" },
       { name := "RTL II HD", url := "http://b" },
       { name := "RTL 2", url := "http://c" }]).length ≠ 1 ∧
    (aggregateChannels
      [{ name := "RTL Kettő", url := "http://a" },
       { name := "RTL II HD", url := "http://b" },
       { name := "RTL 2", url := "http://c" }]).map GroupedChannel.display_name
      = ["RTL Ketto", "RTL II", "RTL 2"] ∧
    ("RTL Ketto" : String) ≠ "RTL Kettő" :=
  ⟨rfl, by decide, rfl, by decide⟩

/-- C5 amended: aggregating the three entries produces three canonical
channels (group keys `rtlketto`, `rtlii`, `rtl2`), each with exactly the
one variant that carried its URL, in first-seen order; each display name
is the first-seen `_normalize_name`-cleaned spelling (accent-folded,
HD-marker-stripped), so "RTL Kettő" becomes "RTL Ketto".  The
convergence of RTL spellings happens later, in `m3u_builder`'s alias
resolution, not in this aggregation. -/
theorem C5_aggregation_amended :
    aggregateChannels
      [{ name := "RTL Kettő", url := "http://a" },
       { name := "RTL II HD", url := "http://b" },
       { name := "RTL 2", url := "http://c" }] =
    [ { channel_id := "rtl ketto", display_name := "RTL Ketto",
        name := "RTL Ketto", url := "http://a", chType := "tv",
        variants := [{ name := "RTL Kettő", url := "http://a" }],
        group_key := "rtlketto" },
      { channel_id := "rtl ii", display_name := "RTL II",
        name := "RTL II", url := "http://b", chType := "tv",
        variants := [{ name := "RTL II HD", url := "http://b" }],
        group_key := "rtlii" },
      { channel_id := "rtl 2", display_name := "RTL 2",
        name := "RTL 2", url := "http://c", chType := "tv",
        variants := [{ name := "RTL 2", url := "http://c" }],
        group_key := "rtl2" } ] := rfl

/-- C8: loading a persisted selection state whose raw content is empty
(unreadable files read as `""`) or not valid JSON raises nothing and
yields the empty defaults: no per-channel indices (every channel's
selected index reads as 0), no last channel, last time 0. -/
theorem C8_corrupt_state_defaults (raw : String)
    (h : raw = "" ∨ parseJson raw = none) :
    loadPlayState raw = Except.ok defaultPlayState ∧
    (∀ cid, readIndex defaultPlayState cid = 0) ∧
    defaultPlayState.lastChannel = none ∧
    defaultPlayState.lastTime = 0 := by
  refine ⟨?_, fun cid => rfl, rfl, rfl⟩
  unfold loadPlayState
  rcases h with rfl | hp
  · rfl
  · by_cases hr : raw = ""
    · rw [if_pos hr]
    · rw [if_neg hr, hp]

/-- Witness for C8 on a truncated JSON document. -/
theorem C8_corrupt_state_defaults_witness :
    loadPlayState "\x7b\"indices\": \x7b\"a\": 1" = Except.ok defaultPlayState ∧
    (∀ cid, readIndex defaultPlayState cid = 0) ∧
    defaultPlayState.lastChannel = none ∧
    defaultPlayState.lastTime = 0 :=
  C8_corrupt_state_defaults "\x7b\"indices\": \x7b\"a\": 1" (Or.inr rfl)

/-! ## Parser lemmas and claim theorem C9 -/

theorem parseStep_mono (st : List ParsedChannel × Option ExtinfMeta)
    (ln : String) : ∃ e, (parseStep st ln).1 = st.1 ++ e := by
  rcases st with ⟨chans, cur⟩
  unfold parseStep flushCurrentWithUrl
  dsimp only
  by_cases h1 : pyStrip (rstripCR ln.data) = []
  · rw [if_pos h1]
    exact ⟨[], by simp⟩
  rw [if_neg h1]
  by_cases h2 : listStartsWith "#EXTINF".data (rstripCR ln.data) = true
  · rw [if_pos h2]
    exact ⟨[], by simp⟩
  rw [if_neg h2]
  by_cases h3 : listStartsWith "#KODIPROP:".data (rstripCR ln.data) = true
  · rw [if_pos h3]
    cases cur with
    | none => exact ⟨[], by simp⟩
    | some c =>
      dsimp only
      split <;> exact ⟨[], by simp⟩
  rw [if_neg h3]
  by_cases h4 : listStartsWith "#".data (rstripCR ln.data) = true
  · rw [if_pos h4]
    exact ⟨[], by simp⟩
  rw [if_neg h4, if_neg h1]
  cases cur with
  | none => exact ⟨_, rfl⟩
  | some c =>
    dsimp only
    exact ⟨_, rfl⟩

theorem parseFold_mono :
    ∀ (lines : List String) (st : List ParsedChannel × Option ExtinfMeta),
      ∃ e, (lines.foldl parseStep st).1 = st.1 ++ e
  | [], st => ⟨[], by simp⟩
  | l :: ls, st => by
    rw [List.foldl_cons]
    obtain ⟨e1, he1⟩ := parseStep_mono st l
    obtain ⟨e2, he2⟩ := parseFold_mono ls (parseStep st l)
    exact ⟨e1 ++ e2, by rw [he2, he1, List.append_assoc]⟩

theorem parseStep_keeps_none (chans : List ParsedChannel) (ln : String)
    (hno : listStartsWith "#EXTINF".data (rstripCR ln.data) = false) :
    (parseStep (chans, none) ln).2 = none := by
  unfold parseStep flushCurrentWithUrl
  dsimp only
  repeat' split <;> simp_all

theorem parseFold_keeps_none :
    ∀ (lines : List String) (chans : List ParsedChannel),
      (∀ l ∈ lines, listStartsWith "#EXTINF".data (rstripCR l.data) = false) →
      (lines.foldl parseStep (chans, none)).2 = none
  | [], _, _ => rfl
  | l :: ls, chans, h => by
    rw [List.foldl_cons]
    have h1 := parseStep_keeps_none chans l (h l (List.mem_cons_self _ _))
    rcases hp : parseStep (chans, none) l with ⟨c2, cur2⟩
    rw [hp] at h1
    simp only at h1
    subst h1
    exact parseFold_keeps_none ls c2 (fun x hx => h x (List.mem_cons_of_mem _ hx))

theorem not_hash_not_extinf {s : List Char}
    (h : listStartsWith "#".data s = false) :
    listStartsWith "#EXTINF".data s = false ∧
    listStartsWith "#KODIPROP:".data s = false := by
  unfold listStartsWith at h ⊢
  cases s with
  | nil => exact ⟨by decide, by decide⟩
  | cons c cs =>
    simp only [decide_eq_false_iff_not] at h ⊢
    constructor <;> intro heq <;> apply h <;>
      simpa using congrArg (fun l => l.take 1) heq

/-- C9: a non-empty, non-comment line with no `#EXTINF` line anywhere
before it is not dropped by the playlist parser: it yields an entry
whose name equals the URL itself (the stripped line). -/
theorem C9_bare_url_line_kept (pre post : List String) (ln : String)
    (hpre : ∀ l ∈ pre, listStartsWith "#EXTINF".data (rstripCR l.data) = false)
    (hblank : pyStrip (rstripCR ln.data) ≠ [])
    (hhash : listStartsWith "#".data (rstripCR ln.data) = false) :
    ({ name := String.mk (pyStrip (rstripCR ln.data)),
       url := String.mk (pyStrip (rstripCR ln.data)) } : ParsedChannel)
      ∈ parseM3uLines (pre ++ ln :: post) := by
  unfold parseM3uLines
  rw [List.foldl_append, List.foldl_cons]
  have hcur : (pre.foldl parseStep ([], none)).2 = none :=
    parseFold_keeps_none pre [] hpre
  rcases hs : pre.foldl parseStep ([], none) with ⟨chans0, cur0⟩
  rw [hs] at hcur
  simp only at hcur
  subst hcur
  obtain ⟨hno_extinf, hno_kodiprop⟩ := not_hash_not_extinf hhash
  have hstep : parseStep (chans0, none) ln
      = (chans0 ++
          [{ name := String.mk (pyStrip (rstripCR ln.data)),
             url := String.mk (pyStrip (rstripCR ln.data)) }], none) := by
    unfold parseStep flushCurrentWithUrl
    dsimp only
    rw [if_neg hblank, if_neg (by simp [hno_extinf]),
      if_neg (by simp [hno_kodiprop]), if_neg (by simp [hhash]),
      if_neg hblank]
  rw [hstep]
  obtain ⟨e, he⟩ := parseFold_mono post _
  rw [he]
  simp

/-- Witness for C9: a bare URL line after only the `#EXTM3U` header. -/
theorem C9_bare_url_line_kept_witness :
    ({ name := String.mk (pyStrip (rstripCR "http://u/x".data)),
       url := String.mk (pyStrip (rstripCR "http://u/x".data)) } : ParsedChannel)
      ∈ parseM3uLines (["#EXTM3U"] ++ "http://u/x" :: []) :=
  C9_bare_url_line_kept ["#EXTM3U"] [] "http://u/x"
    (by intro l hl; simp at hl; subst hl; decide) (by decide) (by decide)
